import Mathlib

/-!
# otf: the run spooler (internal/remoteops/spooler.go) and the path helpers
(http/html/path_helpers.go)

A shallow embedding of the spooler daemon. The two Go channels queue and
cancelations are embedded as the sequence of values sent on them, oldest
first: a send appends at the end. Receiving by a consumer, channel capacity and
blocking are not part of this embedding. Logging calls are dropped: they touch
neither channel nor the returned error.

The path helpers are embedded as functions on strings: fmt.Sprintf with the
verb %s is concatenation, and path.Join and path.Clean of the Go standard
library work on the elements between slashes.
-/

set_option autoImplicit false

namespace Otf

/-! ## Data model -/

/-- Go error values. An error built by fmt.Errorf with the verb %w keeps the
error it wraps. -/
inductive GoError where
  | msg (text : String)
  | wrap (text : String) (inner : GoError)
deriving DecidableEq, Repr

/-- The Go type error: none is the nil error. -/
abbrev error := Option GoError

/-- Modelled from the spec: the sentinel pubsub.ErrSubscriptionTerminated (declared in
package pubsub): "a sentinel subscription terminated error". -/
def ErrSubscriptionTerminated : GoError := GoError.msg "subscription terminated"

/-- The string type workspace.ExecutionMode. -/
abbrev ExecutionMode := String

/-- Modelled from the spec: the constant workspace.RemoteExecutionMode, declared in
package workspace: the remote affinity. -/
def RemoteExecutionMode : ExecutionMode := "remote"

/-- Modelled from the spec: the constant workspace.AgentExecutionMode, declared in
package workspace: the agent affinity. -/
def AgentExecutionMode : ExecutionMode := "agent"

/-- The string type run.Status. -/
abbrev Status := String

/-- Modelled from the spec: the constant run.RunPlanQueued, declared in package run:
the status queued-for-plan. -/
def RunPlanQueued : Status := "queued-for-plan"

/-- Modelled from the spec: the constant run.RunApplyQueued, declared in package run:
the status queued-for-apply. -/
def RunApplyQueued : Status := "queued-for-apply"

/-- Modelled from the spec: the constant run.RunCanceled, declared in package run:
the status canceled. -/
def RunCanceled : Status := "canceled"

/-- Modelled from the spec: the constant run.RunForceCanceled, declared in package
run: the status force-canceled. -/
def RunForceCanceled : Status := "force-canceled"

/-- Modelled from the spec: the struct run.Run, declared in package run: "unique
identifier, owning organization, owning workspace,
execution-mode affinity, and a status". A value of this type stands for a
non-nil pointer to a run. -/
structure Run where
  ID : String
  Organization : String
  WorkspaceID : String
  ExecutionMode : ExecutionMode
  Status : Status
deriving DecidableEq, Repr

/-- Modelled from the spec: the method Queued of run.Run, declared in package run:
"Queued() is true iff status is one of queued-for-plan,
queued-for-apply". -/
def Run.Queued (run : Run) : Bool :=
  run.Status == RunPlanQueued || run.Status == RunApplyQueued

/-- The struct cancelation of spooler.go. -/
structure cancelation where
  Run : Run
  Forceful : Bool
deriving DecidableEq, Repr

/-- The string type pubsub.EventType; the zero value is the empty string. -/
abbrev EventType := String

/-- The dynamic type of an event payload, as far as the type switch of
handleEvent tells payloads apart: a pointer to a run, a string, an error, or
anything else (the nil interface included), for which the switch has no case. -/
inductive Payload where
  | run (r : Run)
  | str (info : String)
  | err (e : GoError)
  | other
deriving DecidableEq, Repr

/-- Modelled from the spec: the struct pubsub.Event, declared in package pubsub:
"an envelope with a Type and a Payload". The field
Type is written Type_. -/
structure Event where
  Type_ : EventType
  Payload : Payload
deriving DecidableEq, Repr

/-- Modelled from the spec: resource.PageOptions, declared in package resource: the
page requested from a listing. -/
structure PageOptions where
  PageNumber : Nat
  PageSize : Nat
deriving DecidableEq, Repr

/-- Modelled from the spec: resource.Page, declared in package resource: the items of
one page and the number of the next page, none
on the last page. -/
structure Page (T : Type) where
  Items : List T
  NextPage : Option Nat

/-- Modelled from the spec: run.ListOptions, the filter of the listing API
("filter: organization, statuses, page"). -/
structure ListOptions where
  PageOptions : PageOptions
  Statuses : List Status
  Organization : String
deriving DecidableEq, Repr

/-- Modelled from the spec: run.WatchOptions, the filter of the event feed
("filter: organization"). -/
structure WatchOptions where
  Organization : String
deriving DecidableEq, Repr

/-- The interface client, as far as the spooler uses it. Watch answers with an
error or with a subscription; a subscription is embedded as the finite sequence
of events the channel delivers before it is closed. ListRuns answers with an
error or with one page. -/
structure client where
  Watch : WatchOptions → Except GoError (List Event)
  ListRuns : ListOptions → Except GoError (Page Run)

/-- Modelled from the spec: the Config of package remoteops, as far as the spooler
reads it: "scopes the Spooler to one organization and declares whether this
instance operates in agent mode or server mode". -/
structure Config where
  Organization : String
  isAgent : Bool
deriving DecidableEq, Repr

/-- The struct spoolerDaemon of spooler.go, without its logger. The fields queue
and cancelations hold what has been sent on the two channels, oldest first. -/
structure spoolerDaemon where
  queue : List Run
  cancelations : List cancelation
  client : client
  Config : Config

/-- Modelled from the spec: resource.MaxPageSize, the page size ListAll asks for. -/
def MaxPageSize : Nat := 100

/-- Modelled from the spec: the loop of the helper resource.ListAll: fetch
the page opts, give up on an error, else keep the items and go on with the next page until a page names none. The first
argument bounds the number of pages fetched; none means the bound was reached. -/
def ListAll.loop {T : Type} (fn : PageOptions → Except GoError (Page T)) :
    Nat → PageOptions → List T → Option (Except GoError (List T))
  | 0, _, _ => none
  | fuel + 1, opts, all =>
    match fn opts with
    | .error err => some (.error err)
    | .ok page =>
      match page.NextPage with
      | none => some (.ok (all ++ page.Items))
      | some next => ListAll.loop fn fuel { opts with PageNumber := next } (all ++ page.Items)

/-- Modelled from the spec: the helper resource.ListAll, declared in package
resource: "a helper that exhausts all pages into one ordered
collection"; a failing page fetch fails the whole listing. -/
def ListAll {T : Type} (fuel : Nat) (fn : PageOptions → Except GoError (Page T)) :
    Option (Except GoError (List T)) :=
  ListAll.loop fn fuel { PageNumber := 0, PageSize := MaxPageSize } []

/-! ## The spooler -/

/-- The method handleRun of spoolerDaemon. -/
def handleRun (s : spoolerDaemon) (_event : EventType) (run : Run) : spoolerDaemon :=
  if s.Config.isAgent && run.ExecutionMode != AgentExecutionMode then
    s
  else if !s.Config.isAgent && run.ExecutionMode != RemoteExecutionMode then
    s
  else if run.Queued then
    { s with queue := s.queue ++ [run] }
  else if run.Status == RunCanceled then
    { s with cancelations := s.cancelations ++ [{ Run := run, Forceful := false }] }
  else if run.Status == RunForceCanceled then
    { s with cancelations := s.cancelations ++ [{ Run := run, Forceful := true }] }
  else
    s

/-- The method handleEvent of spoolerDaemon: the returned error and the daemon
afterwards. -/
def handleEvent (s : spoolerDaemon) (ev : Event) : error × spoolerDaemon :=
  match ev.Payload with
  | .run payload => (none, handleRun s ev.Type_ payload)
  | .str _ => (none, s)
  | .err payload => (some payload, s)
  | .other => (none, s)

/-- The first loop of reinitialize, for i := len(existing) - 1; i >= 0; i--,
entered with i + 1 as second argument: each listed run is handled as the
payload of an event with zero Type, and the error handleEvent returns is
dropped. -/
def spoolExisting (existing : List Run) : Nat → spoolerDaemon → spoolerDaemon
  | 0, s => s
  | i + 1, s =>
    match existing[i]? with
    | none => s
    | some run => spoolExisting existing i (handleEvent s { Type_ := "", Payload := .run run }).2

/-- The second loop of reinitialize, for event := range sub: it returns the
first error of handleEvent, and the sentinel once the channel is closed. -/
def spoolEvents : List Event → spoolerDaemon → error × spoolerDaemon
  | [], s => (some ErrSubscriptionTerminated, s)
  | event :: sub, s =>
    match handleEvent s event with
    | (some err, s1) => (some err, s1)
    | (none, s1) => spoolEvents sub s1

/-- The method reinitialize of spoolerDaemon. The first argument bounds the
number of pages ListAll fetches; the result is none when that bound is
reached. -/
def reinitialize (fuel : Nat) (s : spoolerDaemon) : Option (error × spoolerDaemon) :=
  match s.client.Watch { Organization := s.Config.Organization } with
  | .error err => some (some err, s)
  | .ok sub =>
    match ListAll fuel (fun opts => s.client.ListRuns
        { PageOptions := opts,
          Statuses := [RunPlanQueued, RunApplyQueued],
          Organization := s.Config.Organization }) with
    | none => none
    | some (.error err) => some (some (GoError.wrap "retrieving queued runs: " err), s)
    | some (.ok existing) => some (spoolEvents sub (spoolExisting existing existing.length s))

/-! ## What the two channels should carry, in the words of the specification -/

/-- The affinity filter as the specification words it: "an agent-mode Spooler
only dispatches runs whose execution-mode affinity is agent; a non-agent
(server) Spooler only dispatches runs whose affinity is remote". -/
def affinityMatches (isAgent : Bool) (run : Run) : Bool :=
  if isAgent then run.ExecutionMode == AgentExecutionMode
  else run.ExecutionMode == RemoteExecutionMode

/-- The run an event contributes to the runs stream according to the
specification: the payload, when it is an affinity-matching queued run. -/
def specRunOf (isAgent : Bool) (ev : Event) : Option Run :=
  match ev.Payload with
  | .run r => if affinityMatches isAgent r && r.Queued then some r else none
  | _ => none

/-- The cancelation request an event contributes to the cancelations stream
according to the specification: non-forceful for an affinity-matching run with
status canceled, forceful for one with status force-canceled. -/
def specCancelationOf (isAgent : Bool) (ev : Event) : Option cancelation :=
  match ev.Payload with
  | .run r =>
    if affinityMatches isAgent r && r.Status == RunCanceled then
      some { Run := r, Forceful := false }
    else if affinityMatches isAgent r && r.Status == RunForceCanceled then
      some { Run := r, Forceful := true }
    else none
  | _ => none

/-- The specification of the runs stream: "the subsequence of affinity-matching
queued runs in event order". -/
def specRuns (isAgent : Bool) (evs : List Event) : List Run :=
  evs.filterMap (specRunOf isAgent)

/-- The specification of the cancelations stream: "the subsequence of
affinity-matching canceled/force-canceled runs in event order". -/
def specCancelations (isAgent : Bool) (evs : List Event) : List cancelation :=
  evs.filterMap (specCancelationOf isAgent)

/-! ## Auxiliary definitions for stating the theorems -/

/-- The daemon after handling the events one after the other, whatever
handleEvent returns. -/
def handleAll (evs : List Event) (s : spoolerDaemon) : spoolerDaemon :=
  evs.foldl (fun st ev => (handleEvent st ev).2) s

/-- The events in front of the first one with an error payload. -/
def beforeError : List Event → List Event
  | [] => []
  | ev :: rest =>
    match ev.Payload with
    | .err _ => []
    | _ => ev :: beforeError rest

/-- The same daemon with nothing sent yet on either channel. -/
def withEmptyChannels (s : spoolerDaemon) : spoolerDaemon :=
  { s with queue := [], cancelations := [] }

/-- The event reinitialize builds for a listed run: zero Type, the run as
payload. -/
def replayEvent (run : Run) : Event :=
  { Type_ := "", Payload := .run run }

/-! ## Concrete inputs -/

/-- A client whose feed delivers no event before it closes and whose listing is
one empty page. -/
def idleClient : client :=
  { Watch := fun _ => .ok [],
    ListRuns := fun _ => .ok { Items := [], NextPage := none } }

/-- A server-mode spooler that has sent nothing yet. -/
def serverDaemon : spoolerDaemon :=
  { queue := [], cancelations := [], client := idleClient,
    Config := { Organization := "acme", isAgent := false } }

/-- An agent-mode spooler that has sent nothing yet. -/
def agentDaemon : spoolerDaemon :=
  { queue := [], cancelations := [], client := idleClient,
    Config := { Organization := "acme", isAgent := true } }

/-- A run of organization acme with the given identifier, execution mode and
status. -/
def mkRun (id : String) (mode : ExecutionMode) (status : Status) : Run :=
  { ID := id, Organization := "acme", WorkspaceID := "ws-1", ExecutionMode := mode,
    Status := status }

/-- A listing of three queued remote runs on two pages, newest first, and a feed
that delivers one more queued remote run and is then closed. -/
def listedClient : client :=
  { Watch := fun _ =>
      .ok [{ Type_ := "created", Payload := .run (mkRun "run-4" RemoteExecutionMode RunPlanQueued) }],
    ListRuns := fun opts =>
      if opts.PageOptions.PageNumber = 0 then
        .ok { Items := [mkRun "run-3" RemoteExecutionMode RunPlanQueued,
                        mkRun "run-2" RemoteExecutionMode RunApplyQueued],
              NextPage := some 1 }
      else
        .ok { Items := [mkRun "run-1" RemoteExecutionMode RunPlanQueued], NextPage := none } }

/-- A server-mode spooler on listedClient that has sent nothing yet. -/
def listedDaemon : spoolerDaemon :=
  { queue := [], cancelations := [], client := listedClient,
    Config := { Organization := "acme", isAgent := false } }

/-- A feed whose only event carries a canceled remote run that no listing and no
earlier event mentions; the listing is one empty page. -/
def cancelOnlyClient : client :=
  { Watch := fun _ =>
      .ok [{ Type_ := "updated", Payload := .run (mkRun "run-9" RemoteExecutionMode RunCanceled) }],
    ListRuns := fun _ => .ok { Items := [], NextPage := none } }

/-- A server-mode spooler on cancelOnlyClient that has sent nothing yet. -/
def cancelOnlyDaemon : spoolerDaemon :=
  { queue := [], cancelations := [], client := cancelOnlyClient,
    Config := { Organization := "acme", isAgent := false } }

/-- A feed that delivers a queued remote run, then an error payload, then another
queued remote run; the listing is one page with one queued remote run. -/
def erroringFeedClient : client :=
  { Watch := fun _ =>
      .ok [{ Type_ := "created", Payload := .run (mkRun "run-2" RemoteExecutionMode RunPlanQueued) },
           { Type_ := "", Payload := .err (GoError.msg "connection reset") },
           { Type_ := "created", Payload := .run (mkRun "run-3" RemoteExecutionMode RunPlanQueued) }],
    ListRuns := fun _ =>
      .ok { Items := [mkRun "run-1" RemoteExecutionMode RunPlanQueued], NextPage := none } }

/-- A server-mode spooler on erroringFeedClient that has sent nothing yet. -/
def erroringFeedDaemon : spoolerDaemon :=
  { queue := [], cancelations := [], client := erroringFeedClient,
    Config := { Organization := "acme", isAgent := false } }

/-- A listing whose first page succeeds and names a second page, whose fetch
fails; the feed opens and holds a queued remote run. -/
def brokenListingClient : client :=
  { Watch := fun _ =>
      .ok [{ Type_ := "created", Payload := .run (mkRun "run-4" RemoteExecutionMode RunPlanQueued) }],
    ListRuns := fun opts =>
      if opts.PageOptions.PageNumber = 0 then
        .ok { Items := [mkRun "run-3" RemoteExecutionMode RunPlanQueued], NextPage := some 1 }
      else
        .error (GoError.msg "database unavailable") }

/-- A server-mode spooler on brokenListingClient that has sent nothing yet. -/
def brokenListingDaemon : spoolerDaemon :=
  { queue := [], cancelations := [], client := brokenListingClient,
    Config := { Organization := "acme", isAgent := false } }

/-- A feed that cannot be opened; the listing would succeed. -/
def brokenFeedClient : client :=
  { Watch := fun _ => .error (GoError.msg "feed unavailable"),
    ListRuns := fun _ =>
      .ok { Items := [mkRun "run-1" RemoteExecutionMode RunPlanQueued], NextPage := none } }

/-- A server-mode spooler on brokenFeedClient that has sent nothing yet. -/
def brokenFeedDaemon : spoolerDaemon :=
  { queue := [], cancelations := [], client := brokenFeedClient,
    Config := { Organization := "acme", isAgent := false } }

/-! ## The path helpers (http/html/path_helpers.go) -/

/-- The interface organizationRoute: a route is given by what its method
returns. -/
structure organizationRoute where
  OrganizationName : String
deriving DecidableEq, Repr

/-- The interface workspaceRoute. -/
structure workspaceRoute where
  OrganizationName : String
  WorkspaceName : String
deriving DecidableEq, Repr

/-- The interface runRoute. -/
structure runRoute where
  RunID : String
  WorkspaceName : String
  OrganizationName : String
deriving DecidableEq, Repr

/-- The main loop of path.Clean of the Go standard library, one path element
(the text between two slashes) at a time. The second list holds the elements
written so far, the last written first. An empty element and the element "."
are skipped. The element ".." removes the last written element when there is
one that is not itself ".."; else it is dropped in a rooted path and written
in a path that is not rooted. Any other element is written. -/
def cleanElems (rooted : Bool) : List (List Char) → List (List Char) → List (List Char)
  | [], out => out
  | e :: rest, out =>
    if e = [] ∨ e = ['.'] then cleanElems rooted rest out
    else if e = ['.', '.'] then
      match out with
      | [] => if rooted then cleanElems rooted rest [] else cleanElems rooted rest [e]
      | top :: below =>
        if top = ['.', '.'] then cleanElems rooted rest (e :: out)
        else cleanElems rooted rest below
    else cleanElems rooted rest (e :: out)

/-- The function path.Clean of the Go standard library: the shortest path name
equivalent to path by purely lexical processing. The empty path becomes ".";
a rooted path keeps its leading slash; the written elements are joined by
single slashes; a path that is not rooted and has no element left becomes
".". -/
def Clean (path : String) : String :=
  if path = "" then "."
  else
    let rooted : Bool := path.data.head? = some '/'
    let out := (cleanElems rooted (path.data.splitOn '/') []).reverse
    if rooted then String.mk ('/' :: ['/'].intercalate out)
    else if out = [] then "."
    else String.mk (['/'].intercalate out)

/-- The function path.Join of the Go standard library: leading empty elements
are ignored, the rest is joined with slashes and cleaned; when every element
is empty the result is the empty string. -/
def Join (elem : List String) : String :=
  match elem.dropWhile (fun e => e == "") with
  | [] => ""
  | rest => Clean (String.intercalate "/" rest)

/-- The function getOrganizationPath: fmt.Sprintf with the verb %s puts the
name into the format string as it is. -/
def getOrganizationPath (name : organizationRoute) : String :=
  "/organizations/" ++ name.OrganizationName

/-- The function listAgentTokenPath. -/
def listAgentTokenPath (route : organizationRoute) : String :=
  Join [getOrganizationPath route, "agent-tokens"]

/-- The function deleteAgentTokenPath. -/
def deleteAgentTokenPath (route : organizationRoute) : String :=
  Join [getOrganizationPath route, "agent-tokens", "delete"]

/-- The function createAgentTokenPath. -/
def createAgentTokenPath (route : organizationRoute) : String :=
  Join [getOrganizationPath route, "agent-tokens", "create"]

/-- The function newAgentTokenPath. -/
def newAgentTokenPath (route : organizationRoute) : String :=
  Join [getOrganizationPath route, "agent-tokens", "new"]

/-- The function getWorkspacePath. -/
def getWorkspacePath (ws : workspaceRoute) : String :=
  "/organizations/" ++ ws.OrganizationName ++ "/workspaces/" ++ ws.WorkspaceName

/-- The function getRunPath. -/
def getRunPath (run : runRoute) : String :=
  "/organizations/" ++ run.OrganizationName ++ "/workspaces/" ++ run.WorkspaceName
    ++ "/runs/" ++ run.RunID

/-- The function tailRunPath. -/
def tailRunPath (run : runRoute) : String :=
  Join [getRunPath run, "tail"]

/-- A name that is not empty, holds no slash and is neither "." nor "..". -/
def wellFormedName (name : String) : Prop :=
  name ≠ "" ∧ '/' ∉ name.data ∧ name ≠ "." ∧ name ≠ ".."

instance wellFormedName.instDecidable (name : String) : Decidable (wellFormedName name) :=
  inferInstanceAs (Decidable (name ≠ "" ∧ '/' ∉ name.data ∧ name ≠ "." ∧ name ≠ ".."))

/-- The run route of run-1 in workspace dev of organization acme. -/
def acmeRun : runRoute :=
  { RunID := "run-1", WorkspaceName := "dev", OrganizationName := "acme" }

/-- The run route of run-2 in workspace dev of organization acme. -/
def acmeOtherRun : runRoute :=
  { RunID := "run-2", WorkspaceName := "dev", OrganizationName := "acme" }

/-- The workspace route of workspace dev of organization acme. -/
def acmeDev : workspaceRoute :=
  { OrganizationName := "acme", WorkspaceName := "dev" }

/-- The workspace route of workspace prod of organization acme. -/
def acmeProd : workspaceRoute :=
  { OrganizationName := "acme", WorkspaceName := "prod" }

/-- A listing that answers with a force-canceled remote run, and a feed whose
only event carries a canceled remote run. -/
def staleListingClient : client :=
  { Watch := fun _ =>
      .ok [{ Type_ := "updated", Payload := .run (mkRun "run-9" RemoteExecutionMode RunCanceled) }],
    ListRuns := fun _ =>
      .ok { Items := [mkRun "run-8" RemoteExecutionMode RunForceCanceled], NextPage := none } }

/-- A server-mode spooler on staleListingClient that has sent nothing yet. -/
def staleListingDaemon : spoolerDaemon :=
  { queue := [], cancelations := [], client := staleListingClient,
    Config := { Organization := "acme", isAgent := false } }

/-- A server-mode spooler of another organization, on another client, that has
already sent a run and a cancelation. -/
def busyServerDaemon : spoolerDaemon :=
  { queue := [mkRun "run-0" RemoteExecutionMode RunPlanQueued],
    cancelations := [{ Run := mkRun "run-0" RemoteExecutionMode RunCanceled, Forceful := false }],
    client := listedClient,
    Config := { Organization := "globex", isAgent := false } }

end Otf

namespace Otf

/-! ## Handling one event -/

theorem handleRun_skip_agent (s : spoolerDaemon) (event : EventType) (run : Run)
    (hs : s.Config.isAgent = true) (hr : run.ExecutionMode ≠ AgentExecutionMode) :
    handleRun s event run = s := by
  simp [handleRun, hs, hr]

theorem handleRun_skip_server (s : spoolerDaemon) (event : EventType) (run : Run)
    (hs : s.Config.isAgent = false) (hr : run.ExecutionMode ≠ RemoteExecutionMode) :
    handleRun s event run = s := by
  simp [handleRun, hs, hr]

theorem handleRun_matching (s : spoolerDaemon) (event : EventType) (run : Run)
    (hm : (s.Config.isAgent = true ∧ run.ExecutionMode = AgentExecutionMode) ∨
      (s.Config.isAgent = false ∧ run.ExecutionMode = RemoteExecutionMode)) :
    handleRun s event run =
      if run.Queued then { s with queue := s.queue ++ [run] }
      else if run.Status = RunCanceled then
        { s with cancelations := s.cancelations ++ [{ Run := run, Forceful := false }] }
      else if run.Status = RunForceCanceled then
        { s with cancelations := s.cancelations ++ [{ Run := run, Forceful := true }] }
      else s := by
  rcases hm with ⟨hs, hr⟩ | ⟨hs, hr⟩ <;> simp [handleRun, hs, hr]

theorem queued_iff (run : Run) :
    run.Queued = true ↔ run.Status = RunPlanQueued ∨ run.Status = RunApplyQueued := by
  simp [Run.Queued]

theorem canceled_not_queued (run : Run) (h : run.Status = RunCanceled) : run.Queued = false := by
  simp [Run.Queued, h, RunCanceled, RunPlanQueued, RunApplyQueued]

theorem forceCanceled_not_queued (run : Run) (h : run.Status = RunForceCanceled) :
    run.Queued = false := by
  simp [Run.Queued, h, RunForceCanceled, RunPlanQueued, RunApplyQueued]

theorem forceCanceled_ne_canceled : RunForceCanceled ≠ RunCanceled := by decide

end Otf

namespace Otf

/-- C1: handleRun on an agent-mode spooler sends nothing on either channel when
the run's execution mode is not agent, and on a server-mode spooler sends
nothing when the run's execution mode is not remote; so a run whose execution
mode is neither agent nor remote is skipped in both modes. The status of the
run and the event type are arbitrary. -/
theorem handleRun_affinity_exclusion (s : spoolerDaemon) (event : EventType) (run : Run)
    (h : (s.Config.isAgent = true ∧ run.ExecutionMode ≠ AgentExecutionMode) ∨
      (s.Config.isAgent = false ∧ run.ExecutionMode ≠ RemoteExecutionMode) ∨
      (run.ExecutionMode ≠ AgentExecutionMode ∧ run.ExecutionMode ≠ RemoteExecutionMode)) :
    (handleRun s event run).queue = s.queue ∧
      (handleRun s event run).cancelations = s.cancelations := by
  have key : handleRun s event run = s := by
    rcases h with ⟨hs, hr⟩ | ⟨hs, hr⟩ | ⟨ha, hr⟩
    · exact handleRun_skip_agent s event run hs hr
    · exact handleRun_skip_server s event run hs hr
    · cases hs : s.Config.isAgent
      · exact handleRun_skip_server s event run hs hr
      · exact handleRun_skip_agent s event run hs ha
  rw [key]
  exact ⟨rfl, rfl⟩

theorem handleRun_affinity_exclusion_witness :
    (handleRun agentDaemon "updated" (mkRun "run-1" RemoteExecutionMode RunPlanQueued)).queue
        = agentDaemon.queue ∧
      (handleRun agentDaemon "updated"
        (mkRun "run-1" RemoteExecutionMode RunPlanQueued)).cancelations
        = agentDaemon.cancelations :=
  handleRun_affinity_exclusion agentDaemon "updated"
    (mkRun "run-1" RemoteExecutionMode RunPlanQueued) (Or.inl ⟨rfl, by decide⟩)

/-- C2: for a run whose affinity matches the mode of the spooler and for which
Queued() is true, handleEvent with that run as payload returns nil, appends
exactly that run, once, to the runs channel and sends nothing on the
cancelations channel. -/
theorem handleEvent_dispatches_queued (s : spoolerDaemon) (type : EventType) (run : Run)
    (hm : (s.Config.isAgent = true ∧ run.ExecutionMode = AgentExecutionMode) ∨
      (s.Config.isAgent = false ∧ run.ExecutionMode = RemoteExecutionMode))
    (hq : run.Queued = true) :
    (handleEvent s { Type_ := type, Payload := .run run }).1 = none ∧
      (handleEvent s { Type_ := type, Payload := .run run }).2.queue = s.queue ++ [run] ∧
      (handleEvent s { Type_ := type, Payload := .run run }).2.cancelations = s.cancelations := by
  simp [handleEvent, handleRun_matching s type run hm, hq]

theorem handleEvent_dispatches_queued_witness :
    (handleEvent serverDaemon
        { Type_ := "created", Payload := .run (mkRun "run-1" RemoteExecutionMode RunPlanQueued) }).1
        = none ∧
      (handleEvent serverDaemon
        { Type_ := "created",
          Payload := .run (mkRun "run-1" RemoteExecutionMode RunPlanQueued) }).2.queue
        = serverDaemon.queue ++ [mkRun "run-1" RemoteExecutionMode RunPlanQueued] ∧
      (handleEvent serverDaemon
        { Type_ := "created",
          Payload := .run (mkRun "run-1" RemoteExecutionMode RunPlanQueued) }).2.cancelations
        = serverDaemon.cancelations :=
  handleEvent_dispatches_queued serverDaemon "created"
    (mkRun "run-1" RemoteExecutionMode RunPlanQueued) (Or.inr ⟨rfl, rfl⟩) (by decide)

end Otf

namespace Otf

theorem handleEvent_cancelations_step (s : spoolerDaemon) (ev : Event) :
    (handleEvent s ev).2.cancelations = s.cancelations ∨
      ∃ c : cancelation, (handleEvent s ev).2.cancelations = s.cancelations ++ [c] := by
  rcases ev with ⟨type, payload⟩
  cases payload with
  | run r =>
    simp only [handleEvent, handleRun]
    split_ifs
    · exact Or.inl rfl
    · exact Or.inl rfl
    · exact Or.inl rfl
    · exact Or.inr ⟨_, rfl⟩
    · exact Or.inr ⟨_, rfl⟩
    · exact Or.inl rfl
  | str info => exact Or.inl rfl
  | err e => exact Or.inl rfl
  | other => exact Or.inl rfl

/-- C3: for an affinity-matching run, an event whose run has status canceled
sends exactly one cancelation, for that run and with Forceful false; an event
whose run has status force-canceled sends exactly one cancelation, for that run
and with Forceful true; neither sends anything on the runs channel. No event
whatever sends more than one cancelation, so none sends both a forceful and a
non-forceful one. -/
theorem handleEvent_cancelation_routing (s : spoolerDaemon) (type : EventType) (run : Run)
    (hm : (s.Config.isAgent = true ∧ run.ExecutionMode = AgentExecutionMode) ∨
      (s.Config.isAgent = false ∧ run.ExecutionMode = RemoteExecutionMode)) :
    (run.Status = RunCanceled →
        (handleEvent s { Type_ := type, Payload := .run run }).2.cancelations
          = s.cancelations ++ [{ Run := run, Forceful := false }] ∧
        (handleEvent s { Type_ := type, Payload := .run run }).2.queue = s.queue) ∧
      (run.Status = RunForceCanceled →
        (handleEvent s { Type_ := type, Payload := .run run }).2.cancelations
          = s.cancelations ++ [{ Run := run, Forceful := true }] ∧
        (handleEvent s { Type_ := type, Payload := .run run }).2.queue = s.queue) ∧
      (∀ (t : spoolerDaemon) (ev : Event),
        (handleEvent t ev).2.cancelations = t.cancelations ∨
          ∃ c : cancelation, (handleEvent t ev).2.cancelations = t.cancelations ++ [c]) := by
  refine ⟨?_, ?_, handleEvent_cancelations_step⟩
  · intro hc
    simp [handleEvent, handleRun_matching s type run hm, canceled_not_queued run hc, hc]
  · intro hf
    simp [handleEvent, handleRun_matching s type run hm, forceCanceled_not_queued run hf, hf,
      forceCanceled_ne_canceled]

theorem handleEvent_cancelation_routing_witness :
    (handleEvent agentDaemon
        { Type_ := "updated",
          Payload := .run (mkRun "run-7" AgentExecutionMode RunForceCanceled) }).2.cancelations
        = agentDaemon.cancelations ++
          [{ Run := mkRun "run-7" AgentExecutionMode RunForceCanceled, Forceful := true }] ∧
      (handleEvent agentDaemon
        { Type_ := "updated",
          Payload := .run (mkRun "run-7" AgentExecutionMode RunForceCanceled) }).2.queue
        = agentDaemon.queue :=
  (handleEvent_cancelation_routing agentDaemon "updated"
    (mkRun "run-7" AgentExecutionMode RunForceCanceled) (Or.inl ⟨rfl, rfl⟩)).2.1 rfl

/-- C4: for a run whose status is none of queued-for-plan, queued-for-apply,
canceled and force-canceled, in either spooler mode and with any execution
mode, handling an event that carries the run leaves both the runs channel and
the cancelations channel as they were, and returns nil. -/
theorem handleEvent_other_status_ignored (s : spoolerDaemon) (type : EventType) (run : Run)
    (h1 : run.Status ≠ RunPlanQueued) (h2 : run.Status ≠ RunApplyQueued)
    (h3 : run.Status ≠ RunCanceled) (h4 : run.Status ≠ RunForceCanceled) :
    (handleEvent s { Type_ := type, Payload := .run run }).2.queue = s.queue ∧
      (handleEvent s { Type_ := type, Payload := .run run }).2.cancelations = s.cancelations ∧
      (handleEvent s { Type_ := type, Payload := .run run }).1 = none := by
  have hq : run.Queued = false := by simp [Run.Queued, h1, h2]
  refine ⟨?_, ?_, rfl⟩ <;>
    · simp only [handleEvent, handleRun, hq]
      split_ifs <;> simp_all

theorem handleEvent_other_status_ignored_witness :
    (handleEvent serverDaemon
        { Type_ := "updated",
          Payload := .run (mkRun "run-3" RemoteExecutionMode "running") }).2.queue
        = serverDaemon.queue ∧
      (handleEvent serverDaemon
        { Type_ := "updated",
          Payload := .run (mkRun "run-3" RemoteExecutionMode "running") }).2.cancelations
        = serverDaemon.cancelations ∧
      (handleEvent serverDaemon
        { Type_ := "updated",
          Payload := .run (mkRun "run-3" RemoteExecutionMode "running") }).1 = none :=
  handleEvent_other_status_ignored serverDaemon "updated"
    (mkRun "run-3" RemoteExecutionMode "running")
    (by decide) (by decide) (by decide) (by decide)

end Otf

namespace Otf

/-! ## Handling a sequence of events -/

theorem affinityMatches_iff (s : spoolerDaemon) (run : Run) :
    affinityMatches s.Config.isAgent run = true ↔
      ((s.Config.isAgent = true ∧ run.ExecutionMode = AgentExecutionMode) ∨
        (s.Config.isAgent = false ∧ run.ExecutionMode = RemoteExecutionMode)) := by
  cases h : s.Config.isAgent <;> simp [affinityMatches]

theorem handleRun_frame (s : spoolerDaemon) (event : EventType) (run : Run) :
    (handleRun s event run).Config = s.Config ∧ (handleRun s event run).client = s.client := by
  simp only [handleRun]
  split_ifs <;> exact ⟨rfl, rfl⟩

theorem handleEvent_frame (s : spoolerDaemon) (ev : Event) :
    (handleEvent s ev).2.Config = s.Config ∧ (handleEvent s ev).2.client = s.client := by
  rcases ev with ⟨type, payload⟩
  cases payload with
  | run r => exact handleRun_frame s type r
  | str info => exact ⟨rfl, rfl⟩
  | err e => exact ⟨rfl, rfl⟩
  | other => exact ⟨rfl, rfl⟩

theorem handleRun_queue (s : spoolerDaemon) (event : EventType) (run : Run) :
    (handleRun s event run).queue =
      s.queue ++ (if affinityMatches s.Config.isAgent run && run.Queued then [run] else []) := by
  cases hs : s.Config.isAgent <;> simp only [handleRun, affinityMatches, hs] <;>
    split_ifs <;> simp_all

theorem handleEvent_queue (s : spoolerDaemon) (ev : Event) :
    (handleEvent s ev).2.queue = s.queue ++ (specRunOf s.Config.isAgent ev).toList := by
  rcases ev with ⟨type, payload⟩
  cases payload with
  | run r =>
    simp only [handleEvent, specRunOf, handleRun_queue]
    split_ifs <;> rfl
  | str info => simp [handleEvent, specRunOf]
  | err e => simp [handleEvent, specRunOf]
  | other => simp [handleEvent, specRunOf]

end Otf

namespace Otf

theorem handleEvent_cancelations (s : spoolerDaemon) (ev : Event) :
    (handleEvent s ev).2.cancelations =
      s.cancelations ++ (specCancelationOf s.Config.isAgent ev).toList := by
  rcases ev with ⟨type, payload⟩
  cases payload with
  | run r =>
    by_cases hm : affinityMatches s.Config.isAgent r = true
    · have hrun := handleRun_matching s type r ((affinityMatches_iff s r).1 hm)
      simp only [handleEvent, specCancelationOf, hrun, hm, Bool.true_and, beq_iff_eq]
      by_cases hc : r.Status = RunCanceled
      · simp [hc, canceled_not_queued r hc]
      · by_cases hf : r.Status = RunForceCanceled
        · simp [hf, forceCanceled_not_queued r hf, forceCanceled_ne_canceled]
        · by_cases hq : r.Queued = true <;> simp [hc, hf, hq]
    · have hskip : handleRun s type r = s := by
        cases hs : s.Config.isAgent
        · apply handleRun_skip_server s type r hs
          intro hr
          exact hm (by simp [affinityMatches, hs, hr])
        · apply handleRun_skip_agent s type r hs
          intro hr
          exact hm (by simp [affinityMatches, hs, hr])
      simp [handleEvent, specCancelationOf, hskip, hm]
  | str info => simp [handleEvent, specCancelationOf]
  | err e => simp [handleEvent, specCancelationOf]
  | other => simp [handleEvent, specCancelationOf]

theorem handleAll_nil (s : spoolerDaemon) : handleAll [] s = s := rfl

theorem handleAll_cons (ev : Event) (evs : List Event) (s : spoolerDaemon) :
    handleAll (ev :: evs) s = handleAll evs (handleEvent s ev).2 := rfl

theorem handleAll_append (evs1 evs2 : List Event) (s : spoolerDaemon) :
    handleAll (evs1 ++ evs2) s = handleAll evs2 (handleAll evs1 s) := by
  simp [handleAll, List.foldl_append]

theorem handleAll_frame (evs : List Event) (s : spoolerDaemon) :
    (handleAll evs s).Config = s.Config ∧ (handleAll evs s).client = s.client := by
  induction evs generalizing s with
  | nil => exact ⟨rfl, rfl⟩
  | cons ev evs ih =>
    rw [handleAll_cons]
    exact ⟨(ih _).1.trans (handleEvent_frame s ev).1, (ih _).2.trans (handleEvent_frame s ev).2⟩

theorem handleAll_queue (evs : List Event) (s : spoolerDaemon) :
    (handleAll evs s).queue = s.queue ++ specRuns s.Config.isAgent evs := by
  induction evs generalizing s with
  | nil => simp [handleAll, specRuns]
  | cons ev evs ih =>
    rw [handleAll_cons, ih, handleEvent_queue, (handleEvent_frame s ev).1]
    cases h : specRunOf s.Config.isAgent ev <;> simp [specRuns, List.filterMap_cons, h]

theorem handleAll_cancelations (evs : List Event) (s : spoolerDaemon) :
    (handleAll evs s).cancelations = s.cancelations ++ specCancelations s.Config.isAgent evs := by
  induction evs generalizing s with
  | nil => simp [handleAll, specCancelations]
  | cons ev evs ih =>
    rw [handleAll_cons, ih, handleEvent_cancelations, (handleEvent_frame s ev).1]
    cases h : specCancelationOf s.Config.isAgent ev <;>
      simp [specCancelations, List.filterMap_cons, h]

theorem handleEvent_error_iff (s : spoolerDaemon) (ev : Event) :
    (handleEvent s ev).1 ≠ none ↔ ∃ e : GoError, ev.Payload = .err e := by
  rcases ev with ⟨type, payload⟩
  cases payload <;> simp [handleEvent]

theorem handleEvent_error_eq (s : spoolerDaemon) (type : EventType) (e : GoError) :
    handleEvent s { Type_ := type, Payload := .err e } = (some e, s) := rfl

theorem spoolEvents_state (evs : List Event) (s : spoolerDaemon) :
    (spoolEvents evs s).2 = handleAll (beforeError evs) s := by
  induction evs generalizing s with
  | nil => rfl
  | cons ev evs ih =>
    rcases ev with ⟨type, payload⟩
    cases payload with
    | run r => simpa [spoolEvents, handleEvent, beforeError, handleAll_cons] using ih _
    | str info => simpa [spoolEvents, handleEvent, beforeError, handleAll_cons] using ih _
    | err e => simp [spoolEvents, handleEvent, beforeError, handleAll]
    | other => simpa [spoolEvents, handleEvent, beforeError, handleAll_cons] using ih _

theorem beforeError_of_no_error (evs : List Event)
    (h : ∀ ev ∈ evs, ∀ e : GoError, ev.Payload ≠ .err e) : beforeError evs = evs := by
  induction evs with
  | nil => rfl
  | cons ev evs ih =>
    have hev := h ev (List.mem_cons_self _ _)
    have hrest := ih (fun x hx => h x (List.mem_cons_of_mem _ hx))
    rcases ev with ⟨type, payload⟩
    cases payload with
    | run r => simp [beforeError, hrest]
    | str info => simp [beforeError, hrest]
    | err e => exact absurd rfl (hev e)
    | other => simp [beforeError, hrest]

theorem beforeError_append_error (pre post : List Event) (type : EventType) (e : GoError)
    (h : ∀ ev ∈ pre, ∀ e1 : GoError, ev.Payload ≠ .err e1) :
    beforeError (pre ++ { Type_ := type, Payload := .err e } :: post) = pre := by
  induction pre with
  | nil => simp [beforeError]
  | cons ev pre ih =>
    have hev := h ev (List.mem_cons_self _ _)
    have hrest := ih (fun x hx => h x (List.mem_cons_of_mem _ hx))
    rcases ev with ⟨type1, payload⟩
    cases payload with
    | run r => simp [beforeError, hrest]
    | str info => simp [beforeError, hrest]
    | err e1 => exact absurd rfl (hev e1)
    | other => simp [beforeError, hrest]

theorem beforeError_subset (evs : List Event) : ∀ ev ∈ beforeError evs, ev ∈ evs := by
  induction evs with
  | nil => simp [beforeError]
  | cons ev evs ih =>
    rcases ev with ⟨type, payload⟩
    cases payload with
    | run r =>
      intro x hx
      simp only [beforeError, List.mem_cons] at hx ⊢
      exact hx.imp id (ih x)
    | str info =>
      intro x hx
      simp only [beforeError, List.mem_cons] at hx ⊢
      exact hx.imp id (ih x)
    | err e => simp [beforeError]
    | other =>
      intro x hx
      simp only [beforeError, List.mem_cons] at hx ⊢
      exact hx.imp id (ih x)

theorem spoolEvents_error (evs : List Event) (s : spoolerDaemon) :
    (spoolEvents evs s).1 ≠ none := by
  induction evs generalizing s with
  | nil => simp [spoolEvents]
  | cons ev evs ih =>
    rcases ev with ⟨type, payload⟩
    cases payload with
    | run r => simpa [spoolEvents, handleEvent] using ih _
    | str info => simpa [spoolEvents, handleEvent] using ih _
    | err e => simp [spoolEvents, handleEvent]
    | other => simpa [spoolEvents, handleEvent] using ih _

theorem spoolEvents_no_error (evs : List Event) (s : spoolerDaemon)
    (h : ∀ ev ∈ evs, ∀ e : GoError, ev.Payload ≠ .err e) :
    (spoolEvents evs s).1 = some ErrSubscriptionTerminated := by
  induction evs generalizing s with
  | nil => rfl
  | cons ev evs ih =>
    have hev := h ev (List.mem_cons_self _ _)
    have hrest := fun t => ih t (fun x hx => h x (List.mem_cons_of_mem _ hx))
    rcases ev with ⟨type, payload⟩
    cases payload with
    | run r => simpa [spoolEvents, handleEvent] using hrest _
    | str info => simpa [spoolEvents, handleEvent] using hrest _
    | err e => exact absurd rfl (hev e)
    | other => simpa [spoolEvents, handleEvent] using hrest _

theorem spoolEvents_first_error (pre post : List Event) (type : EventType) (e : GoError)
    (s : spoolerDaemon) (h : ∀ ev ∈ pre, ∀ e1 : GoError, ev.Payload ≠ .err e1) :
    (spoolEvents (pre ++ { Type_ := type, Payload := .err e } :: post) s).1 = some e := by
  induction pre generalizing s with
  | nil => simp [spoolEvents, handleEvent]
  | cons ev pre ih =>
    have hev := h ev (List.mem_cons_self _ _)
    have hrest := fun t => ih t (fun x hx => h x (List.mem_cons_of_mem _ hx))
    rcases ev with ⟨type1, payload⟩
    cases payload with
    | run r => simpa [spoolEvents, handleEvent] using hrest _
    | str info => simpa [spoolEvents, handleEvent] using hrest _
    | err e1 => exact absurd rfl (hev e1)
    | other => simpa [spoolEvents, handleEvent] using hrest _

end Otf

namespace Otf

/-! ## One reconcile cycle -/

theorem spoolExisting_eq (existing : List Run) (n : Nat) (hn : n ≤ existing.length)
    (s : spoolerDaemon) :
    spoolExisting existing n s = handleAll (((existing.take n).reverse).map replayEvent) s := by
  induction n generalizing s with
  | zero => simp [spoolExisting, handleAll]
  | succ n ih =>
    have hlt : n < existing.length := hn
    have hget : existing[n]? = some existing[n] := List.getElem?_eq_getElem hlt
    have htake : existing.take (n + 1) = existing.take n ++ [existing[n]] := by
      rw [List.take_succ, hget]
      rfl
    simp only [spoolExisting, hget]
    rw [ih (Nat.le_of_lt hlt), htake, List.reverse_append, List.reverse_singleton,
      List.singleton_append, List.map_cons, handleAll_cons]
    rfl

theorem spoolExisting_all (existing : List Run) (s : spoolerDaemon) :
    spoolExisting existing existing.length s = handleAll (existing.reverse.map replayEvent) s := by
  rw [spoolExisting_eq existing existing.length (Nat.le_refl _) s, List.take_length]

theorem specRuns_replay (isAgent : Bool) (runs : List Run)
    (h : ∀ r ∈ runs, affinityMatches isAgent r = true ∧ r.Queued = true) :
    specRuns isAgent (runs.map replayEvent) = runs := by
  induction runs with
  | nil => rfl
  | cons r runs ih =>
    have hr := h r (List.mem_cons_self _ _)
    have hrest := ih (fun x hx => h x (List.mem_cons_of_mem _ hx))
    simp only [specRuns] at hrest
    simp [specRuns, List.filterMap_cons, specRunOf, replayEvent, hr.1, hr.2, hrest]

theorem specCancelations_replay (isAgent : Bool) (runs : List Run)
    (h : ∀ r ∈ runs, r.Queued = true) :
    specCancelations isAgent (runs.map replayEvent) = [] := by
  induction runs with
  | nil => rfl
  | cons r runs ih =>
    have hr := h r (List.mem_cons_self _ _)
    have hrest := ih (fun x hx => h x (List.mem_cons_of_mem _ hx))
    have hc : ¬ r.Status = RunCanceled := fun hc => by
      rw [canceled_not_queued r hc] at hr
      exact Bool.false_ne_true hr
    have hf : ¬ r.Status = RunForceCanceled := fun hf => by
      rw [forceCanceled_not_queued r hf] at hr
      exact Bool.false_ne_true hr
    simp only [specCancelations] at hrest
    simp [specCancelations, List.filterMap_cons, specCancelationOf, replayEvent, hc, hf, hrest]

theorem spoolEvents_queue_frame (evs : List Event) (s : spoolerDaemon) :
    (spoolEvents evs s).2.queue = s.queue ++ (spoolEvents evs (withEmptyChannels s)).2.queue := by
  rw [spoolEvents_state, spoolEvents_state, handleAll_queue, handleAll_queue]
  simp [withEmptyChannels]

theorem spoolEvents_cancelations_frame (evs : List Event) (s : spoolerDaemon) :
    (spoolEvents evs s).2.cancelations =
      s.cancelations ++ (spoolEvents evs (withEmptyChannels s)).2.cancelations := by
  rw [spoolEvents_state, spoolEvents_state, handleAll_cancelations, handleAll_cancelations]
  simp [withEmptyChannels]

theorem reinitialize_listed (fuel : Nat) (s : spoolerDaemon) (sub : List Event)
    (existing : List Run)
    (hw : s.client.Watch { Organization := s.Config.Organization } = .ok sub)
    (hl : ListAll fuel (fun opts => s.client.ListRuns
        { PageOptions := opts,
          Statuses := [RunPlanQueued, RunApplyQueued],
          Organization := s.Config.Organization }) = some (.ok existing)) :
    reinitialize fuel s = some (spoolEvents sub (spoolExisting existing existing.length s)) := by
  simp only [ reinitialize, hw, hl]

/-- C5: when the exhausted pagination of ListRuns returns the listing existing
(newest first) and every listed run is queued and matches the affinity of the
spooler, the replay loop of reinitialize sends the listed runs on the runs
channel in reversed order and sends no cancelation; the loop over the live
subscription starts from that state, so the cycle leaves on the runs channel
what was there before, then the reversed listing, then what the live events
contribute. -/
theorem reinitialize_replays_oldest_first (fuel : Nat) (s : spoolerDaemon) (sub : List Event)
    (existing : List Run)
    (hw : s.client.Watch { Organization := s.Config.Organization } = .ok sub)
    (hl : ListAll fuel (fun opts => s.client.ListRuns
        { PageOptions := opts,
          Statuses := [RunPlanQueued, RunApplyQueued],
          Organization := s.Config.Organization }) = some (.ok existing))
    (hall : ∀ r ∈ existing, r.Queued = true ∧
      ((s.Config.isAgent = true ∧ r.ExecutionMode = AgentExecutionMode) ∨
        (s.Config.isAgent = false ∧ r.ExecutionMode = RemoteExecutionMode))) :
    (spoolExisting existing existing.length s).queue = s.queue ++ existing.reverse ∧
      (spoolExisting existing existing.length s).cancelations = s.cancelations ∧
      reinitialize fuel s = some (spoolEvents sub (spoolExisting existing existing.length s)) ∧
      ( reinitialize fuel s).map (fun res => res.2.queue) =
        some (s.queue ++ existing.reverse ++ (spoolEvents sub (withEmptyChannels s)).2.queue) := by
  have hrev : ∀ r ∈ existing.reverse,
      affinityMatches s.Config.isAgent r = true ∧ r.Queued = true := by
    intro r hr
    have h := hall r (List.mem_reverse.1 hr)
    exact ⟨(affinityMatches_iff s r).2 h.2, h.1⟩
  have hq : (spoolExisting existing existing.length s).queue = s.queue ++ existing.reverse := by
    rw [spoolExisting_all, handleAll_queue, specRuns_replay _ _ hrev]
  have hc : (spoolExisting existing existing.length s).cancelations = s.cancelations := by
    rw [spoolExisting_all, handleAll_cancelations,
      specCancelations_replay _ _ (fun r hr => (hrev r hr).2)]
    simp
  have hre := reinitialize_listed fuel s sub existing hw hl
  refine ⟨hq, hc, hre, ?_⟩
  rw [hre, Option.map_some', spoolEvents_queue_frame, hq]
  have hempty : withEmptyChannels (spoolExisting existing existing.length s)
      = withEmptyChannels s := by
    rw [spoolExisting_all]
    simp [withEmptyChannels, (handleAll_frame _ s).1, (handleAll_frame _ s).2]
  rw [hempty]

theorem reinitialize_replays_oldest_first_witness :
    ( reinitialize 2 listedDaemon).map (fun res => res.2.queue) =
      some (listedDaemon.queue ++
        [mkRun "run-3" RemoteExecutionMode RunPlanQueued,
          mkRun "run-2" RemoteExecutionMode RunApplyQueued,
          mkRun "run-1" RemoteExecutionMode RunPlanQueued].reverse ++
        (spoolEvents
          [{ Type_ := "created",
             Payload := .run (mkRun "run-4" RemoteExecutionMode RunPlanQueued) }]
          (withEmptyChannels listedDaemon)).2.queue) :=
  ( reinitialize_replays_oldest_first 2 listedDaemon
    [{ Type_ := "created", Payload := .run (mkRun "run-4" RemoteExecutionMode RunPlanQueued) }]
    [mkRun "run-3" RemoteExecutionMode RunPlanQueued,
      mkRun "run-2" RemoteExecutionMode RunApplyQueued,
      mkRun "run-1" RemoteExecutionMode RunPlanQueued]
    rfl rfl (by decide)).2.2.2

end Otf

namespace Otf

/-- C6: for live events with no error payload, what the loop over the
subscription sends on the runs channel is exactly the subsequence of
affinity-matching queued runs in event order, and what it sends on the
cancelations channel is exactly the subsequence of affinity-matching canceled
and force-canceled runs in event order; handling a concatenation of two such
event sequences sends the concatenation of what each of them sends. -/
theorem spoolEvents_preserves_order (s : spoolerDaemon) (evs1 evs2 : List Event)
    (h1 : ∀ ev ∈ evs1, ∀ e : GoError, ev.Payload ≠ .err e)
    (h2 : ∀ ev ∈ evs2, ∀ e : GoError, ev.Payload ≠ .err e) :
    (spoolEvents evs1 s).2.queue = s.queue ++ specRuns s.Config.isAgent evs1 ∧
      (spoolEvents evs1 s).2.cancelations
        = s.cancelations ++ specCancelations s.Config.isAgent evs1 ∧
      (spoolEvents (evs1 ++ evs2) s).2.queue
        = s.queue ++ ((spoolEvents evs1 (withEmptyChannels s)).2.queue
            ++ (spoolEvents evs2 (withEmptyChannels s)).2.queue) ∧
      (spoolEvents (evs1 ++ evs2) s).2.cancelations
        = s.cancelations ++ ((spoolEvents evs1 (withEmptyChannels s)).2.cancelations
            ++ (spoolEvents evs2 (withEmptyChannels s)).2.cancelations) := by
  have h12 : ∀ ev ∈ evs1 ++ evs2, ∀ e : GoError, ev.Payload ≠ .err e := by
    intro ev hev
    rcases List.mem_append.1 hev with h | h
    · exact h1 ev h
    · exact h2 ev h
  have hcfg : (withEmptyChannels s).Config = s.Config := rfl
  refine ⟨?_, ?_, ?_, ?_⟩
  · rw [spoolEvents_state, beforeError_of_no_error evs1 h1, handleAll_queue]
  · rw [spoolEvents_state, beforeError_of_no_error evs1 h1, handleAll_cancelations]
  · rw [spoolEvents_state, spoolEvents_state, spoolEvents_state,
      beforeError_of_no_error _ h12, beforeError_of_no_error evs1 h1,
      beforeError_of_no_error evs2 h2, handleAll_queue, handleAll_queue, handleAll_queue, hcfg]
    simp [specRuns, withEmptyChannels]
  · rw [spoolEvents_state, spoolEvents_state, spoolEvents_state,
      beforeError_of_no_error _ h12, beforeError_of_no_error evs1 h1,
      beforeError_of_no_error evs2 h2, handleAll_cancelations, handleAll_cancelations,
      handleAll_cancelations, hcfg]
    simp [specCancelations, withEmptyChannels]

theorem spoolEvents_preserves_order_witness :
    (spoolEvents
        [{ Type_ := "created", Payload := .run (mkRun "run-1" RemoteExecutionMode RunPlanQueued) },
         { Type_ := "", Payload := .str "heartbeat" }] serverDaemon).2.queue
      = serverDaemon.queue ++ specRuns serverDaemon.Config.isAgent
        [{ Type_ := "created", Payload := .run (mkRun "run-1" RemoteExecutionMode RunPlanQueued) },
         { Type_ := "", Payload := .str "heartbeat" }] :=
  (spoolEvents_preserves_order serverDaemon
    [{ Type_ := "created", Payload := .run (mkRun "run-1" RemoteExecutionMode RunPlanQueued) },
     { Type_ := "", Payload := .str "heartbeat" }]
    [{ Type_ := "updated", Payload := .run (mkRun "run-1" RemoteExecutionMode RunCanceled) }]
    (by simp) (by simp)).1

/-- C7, as stated, fails: in one reconcile cycle of a server-mode spooler whose
listing is empty and whose feed delivers a single event, carrying a canceled
remote run, a cancelation for that run is sent although nothing at all has been
sent on the runs channel. -/
theorem cancelation_without_dispatch :
    ∃ st : spoolerDaemon,
      reinitialize 1 cancelOnlyDaemon = some (some ErrSubscriptionTerminated, st) ∧
      st.cancelations
        = [{ Run := mkRun "run-9" RemoteExecutionMode RunCanceled, Forceful := false }] ∧
      st.queue = [] ∧
      ¬ ∃ r ∈ st.queue, r.ID = "run-9" :=
  ⟨_, rfl, rfl, rfl, fun ⟨r, hr, _⟩ => List.not_mem_nil r hr⟩

end Otf

namespace Otf

theorem specCancelationOf_some (isAgent : Bool) (ev : Event) (c : cancelation)
    (h : specCancelationOf isAgent ev = some c) :
    ev.Payload = .run c.Run ∧ affinityMatches isAgent c.Run = true ∧
      ((c.Run.Status = RunCanceled ∧ c.Forceful = false) ∨
        (c.Run.Status = RunForceCanceled ∧ c.Forceful = true)) := by
  rcases ev with ⟨type, payload⟩
  cases payload with
  | run r =>
    simp only [specCancelationOf] at h
    split_ifs at h with h1 h2
    · simp only [Bool.and_eq_true, beq_iff_eq] at h1
      cases h
      exact ⟨rfl, h1.1, Or.inl ⟨h1.2, rfl⟩⟩
    · simp only [Bool.and_eq_true, beq_iff_eq] at h2
      cases h
      exact ⟨rfl, h2.1, Or.inr ⟨h2.2, rfl⟩⟩
  | str info => simp [specCancelationOf] at h
  | err e => simp [specCancelationOf] at h
  | other => simp [specCancelationOf] at h

theorem spoolEvents_cancelation_source (s : spoolerDaemon) (evs : List Event) (c : cancelation)
    (hc : c ∈ (spoolEvents evs s).2.cancelations) :
    c ∈ s.cancelations ∨
      ∃ ev ∈ evs, ev.Payload = .run c.Run ∧
        ((s.Config.isAgent = true ∧ c.Run.ExecutionMode = AgentExecutionMode) ∨
          (s.Config.isAgent = false ∧ c.Run.ExecutionMode = RemoteExecutionMode)) ∧
        ((c.Run.Status = RunCanceled ∧ c.Forceful = false) ∨
          (c.Run.Status = RunForceCanceled ∧ c.Forceful = true)) := by
  rw [spoolEvents_state, handleAll_cancelations] at hc
  rcases List.mem_append.1 hc with h | h
  · exact Or.inl h
  · right
    simp only [specCancelations, List.mem_filterMap] at h
    obtain ⟨ev, hev, hsome⟩ := h
    have hspec := specCancelationOf_some _ ev c hsome
    exact ⟨ev, beforeError_subset evs ev hev, hspec.1, (affinityMatches_iff s c.Run).1 hspec.2.1,
      hspec.2.2⟩

theorem spoolEvents_at_first_error (pre post : List Event) (type : EventType) (e : GoError)
    (s : spoolerDaemon) (h : ∀ ev ∈ pre, ∀ e1 : GoError, ev.Payload ≠ .err e1) :
    spoolEvents (pre ++ { Type_ := type, Payload := .err e } :: post) s
      = (some e, handleAll pre s) := by
  apply Prod.ext
  · exact spoolEvents_first_error pre post type e s h
  · rw [spoolEvents_state, beforeError_append_error pre post type e h]

/-- C8: when the first event with an error payload sits behind the events pre
of the live subscription, reinitialize returns exactly that error, its state is
the one reached by handling the listing and then every event of pre in order,
and the events post behind the error event play no part in the result.
handleEvent returns a non-nil error exactly when the payload of the event is an
error. -/
theorem reinitialize_error_payload_terminal (fuel : Nat) (s : spoolerDaemon)
    (pre post : List Event) (type : EventType) (e : GoError) (existing : List Run)
    (hw : s.client.Watch { Organization := s.Config.Organization }
      = .ok (pre ++ { Type_ := type, Payload := .err e } :: post))
    (hl : ListAll fuel (fun opts => s.client.ListRuns
        { PageOptions := opts,
          Statuses := [RunPlanQueued, RunApplyQueued],
          Organization := s.Config.Organization }) = some (.ok existing))
    (hpre : ∀ ev ∈ pre, ∀ e1 : GoError, ev.Payload ≠ .err e1) :
    reinitialize fuel s
        = some (some e, handleAll pre (spoolExisting existing existing.length s)) ∧
      (∀ (st : spoolerDaemon) (post1 : List Event),
        spoolEvents (pre ++ { Type_ := type, Payload := .err e } :: post1) st
          = (some e, handleAll pre st)) ∧
      (∀ (st : spoolerDaemon) (ev : Event),
        (handleEvent st ev).1 ≠ none ↔ ∃ e1 : GoError, ev.Payload = .err e1) := by
  refine ⟨?_, ?_, handleEvent_error_iff⟩
  · rw [ reinitialize_listed fuel s _ existing hw hl, spoolEvents_at_first_error pre post type e _ hpre]
  · intro st post1
    exact spoolEvents_at_first_error pre post1 type e st hpre

theorem reinitialize_error_payload_terminal_witness :
    reinitialize 1 erroringFeedDaemon
      = some (some (GoError.msg "connection reset"),
          handleAll
            [{ Type_ := "created",
               Payload := .run (mkRun "run-2" RemoteExecutionMode RunPlanQueued) }]
            (spoolExisting [mkRun "run-1" RemoteExecutionMode RunPlanQueued]
              [mkRun "run-1" RemoteExecutionMode RunPlanQueued].length erroringFeedDaemon)) :=
  ( reinitialize_error_payload_terminal 1 erroringFeedDaemon
    [{ Type_ := "created", Payload := .run (mkRun "run-2" RemoteExecutionMode RunPlanQueued) }]
    [{ Type_ := "created", Payload := .run (mkRun "run-3" RemoteExecutionMode RunPlanQueued) }]
    "" (GoError.msg "connection reset") [mkRun "run-1" RemoteExecutionMode RunPlanQueued]
    rfl rfl (by simp)).1

end Otf

namespace Otf

theorem reinitialize_never_nil (fuel : Nat) (s : spoolerDaemon) (r : error)
    (st : spoolerDaemon) (h : reinitialize fuel s = some (r, st)) : r ≠ none := by
  unfold reinitialize at h
  split at h
  · cases h
    simp
  · split at h
    · cases h
    · cases h
      simp
    · injection h with h
      have hne := spoolEvents_error ‹List Event› (spoolExisting ‹List Run› (List.length ‹List Run›) s)
      rw [h] at hne
      exact hne

/-- C9: when Watch and the listing succeed and the subscription delivers a
finite sequence of events without error payload and is then closed,
reinitialize returns pubsub.ErrSubscriptionTerminated, after handling the
listing and every delivered event; and whenever reinitialize returns, on any
input, the error it returns is not nil. -/
theorem reinitialize_sentinel_on_closure (fuel : Nat) (s : spoolerDaemon) (sub : List Event)
    (existing : List Run)
    (hw : s.client.Watch { Organization := s.Config.Organization } = .ok sub)
    (hl : ListAll fuel (fun opts => s.client.ListRuns
        { PageOptions := opts,
          Statuses := [RunPlanQueued, RunApplyQueued],
          Organization := s.Config.Organization }) = some (.ok existing))
    (hne : ∀ ev ∈ sub, ∀ e : GoError, ev.Payload ≠ .err e) :
    reinitialize fuel s
        = some (some ErrSubscriptionTerminated,
            handleAll sub (spoolExisting existing existing.length s)) ∧
      (∀ (fuel1 : Nat) (s1 : spoolerDaemon) (r : error) (st : spoolerDaemon),
        reinitialize fuel1 s1 = some (r, st) → r ≠ none) := by
  refine ⟨?_, reinitialize_never_nil⟩
  rw [ reinitialize_listed fuel s sub existing hw hl]
  congr 1
  apply Prod.ext
  · exact spoolEvents_no_error sub _ hne
  · rw [spoolEvents_state, beforeError_of_no_error sub hne]

theorem reinitialize_sentinel_on_closure_witness :
    reinitialize 2 listedDaemon
      = some (some ErrSubscriptionTerminated,
          handleAll
            [{ Type_ := "created",
               Payload := .run (mkRun "run-4" RemoteExecutionMode RunPlanQueued) }]
            (spoolExisting
              [mkRun "run-3" RemoteExecutionMode RunPlanQueued,
                mkRun "run-2" RemoteExecutionMode RunApplyQueued,
                mkRun "run-1" RemoteExecutionMode RunPlanQueued]
              [mkRun "run-3" RemoteExecutionMode RunPlanQueued,
                mkRun "run-2" RemoteExecutionMode RunApplyQueued,
                mkRun "run-1" RemoteExecutionMode RunPlanQueued].length listedDaemon)) :=
  ( reinitialize_sentinel_on_closure 2 listedDaemon
    [{ Type_ := "created", Payload := .run (mkRun "run-4" RemoteExecutionMode RunPlanQueued) }]
    [mkRun "run-3" RemoteExecutionMode RunPlanQueued,
      mkRun "run-2" RemoteExecutionMode RunApplyQueued,
      mkRun "run-1" RemoteExecutionMode RunPlanQueued]
    rfl rfl (by simp)).1

/-- C10: if Watch returns an error, reinitialize returns that error and leaves
both channels as they were, whatever the bound on page fetches (zero included)
and whatever ListRuns would answer, so no page is fetched. If Watch succeeds and
exhausting the pages of ListRuns returns an error, reinitialize returns that
error wrapped with the text "retrieving queued runs: " and leaves both channels
as they were, whatever the subscription holds. -/
theorem reinitialize_no_partial_reconciliation (fuel : Nat) (s : spoolerDaemon) :
    (∀ err : GoError,
        s.client.Watch { Organization := s.Config.Organization } = .error err →
        ∀ (fuel1 : Nat) (listRuns : ListOptions → Except GoError (Page Run)),
          reinitialize fuel1 { s with client := { s.client with ListRuns := listRuns } }
            = some (some err, { s with client := { s.client with ListRuns := listRuns } })) ∧
      (∀ (sub : List Event) (err : GoError),
        s.client.Watch { Organization := s.Config.Organization } = .ok sub →
        ListAll fuel (fun opts => s.client.ListRuns
          { PageOptions := opts,
            Statuses := [RunPlanQueued, RunApplyQueued],
            Organization := s.Config.Organization }) = some (.error err) →
        reinitialize fuel s = some (some (GoError.wrap "retrieving queued runs: " err), s) ∧
          ∀ sub1 : List Event,
            reinitialize fuel { s with client := { s.client with Watch := fun _ => .ok sub1 } }
              = some (some (GoError.wrap "retrieving queued runs: " err),
                  { s with client := { s.client with Watch := fun _ => .ok sub1 } })) := by
  constructor
  · intro err hw fuel1 listRuns
    simp only [ reinitialize, hw]
  · intro sub err hw hl
    constructor
    · simp only [ reinitialize, hw, hl]
    · intro sub1
      simp only [ reinitialize, hl]

theorem reinitialize_no_partial_reconciliation_witness :
    reinitialize 2 brokenListingDaemon
        = some (some (GoError.wrap "retrieving queued runs: "
            (GoError.msg "database unavailable")), brokenListingDaemon) ∧
      reinitialize 0 brokenFeedDaemon
        = some (some (GoError.msg "feed unavailable"), brokenFeedDaemon) :=
  ⟨(( reinitialize_no_partial_reconciliation 2 brokenListingDaemon).2
      [{ Type_ := "created", Payload := .run (mkRun "run-4" RemoteExecutionMode RunPlanQueued) }]
      (GoError.msg "database unavailable") rfl rfl).1,
    ( reinitialize_no_partial_reconciliation 0 brokenFeedDaemon).1
      (GoError.msg "feed unavailable") rfl 0 brokenFeedClient.ListRuns⟩

end Otf

namespace Otf

/-! ## The concrete cycles, evaluated -/

theorem listedDaemon_cycle :
    ( reinitialize 2 listedDaemon).map (fun res => (res.1, res.2.queue, res.2.cancelations)) =
      some (some ErrSubscriptionTerminated,
        [mkRun "run-1" RemoteExecutionMode RunPlanQueued,
          mkRun "run-2" RemoteExecutionMode RunApplyQueued,
          mkRun "run-3" RemoteExecutionMode RunPlanQueued,
          mkRun "run-4" RemoteExecutionMode RunPlanQueued],
        []) := rfl

theorem erroringFeedDaemon_cycle :
    ( reinitialize 1 erroringFeedDaemon).map
        (fun res => (res.1, res.2.queue, res.2.cancelations)) =
      some (some (GoError.msg "connection reset"),
        [mkRun "run-1" RemoteExecutionMode RunPlanQueued,
          mkRun "run-2" RemoteExecutionMode RunPlanQueued],
        []) := rfl

theorem listedDaemon_out_of_fuel : reinitialize 1 listedDaemon = none := rfl

end Otf

namespace Otf

/-! ## Informational events, replay and successive cycles -/

/-- C11: for an event whose payload is a string, handleEvent returns nil and
leaves both the runs channel and the cancelations channel as they were; the
loop over the subscription then goes on with the next event. -/
theorem handleEvent_string_payload (s : spoolerDaemon) (type : EventType) (info : String)
    (sub : List Event) :
    (handleEvent s { Type_ := type, Payload := .str info }).1 = none ∧
      (handleEvent s { Type_ := type, Payload := .str info }).2.queue = s.queue ∧
      (handleEvent s { Type_ := type, Payload := .str info }).2.cancelations = s.cancelations ∧
      spoolEvents ({ Type_ := type, Payload := .str info } :: sub) s = spoolEvents sub s :=
  ⟨rfl, rfl, rfl, rfl⟩

/-- C15: what handleEvent returns and what it sends depends on the payload and
on the mode of the spooler only. Events that differ in Type alone give the same
error and the same daemon; so handling the event that reinitialize builds for
a listed run (zero Type) has the same effect on both channels as handling a
live event of any Type with that run as payload, and the replay loop handles
each listed run through handleEvent. Two daemons in the same mode, whatever
their organization, client and channel contents, handling events of any Types
with the same payload, return the same error and append the same runs and the
same cancelations to their channels. -/
theorem handleEvent_ignores_type (s t : spoolerDaemon) (type1 type2 : EventType)
    (payload : Payload) (run : Run) (existing : List Run)
    (hmode : s.Config.isAgent = t.Config.isAgent) :
    handleEvent s { Type_ := type1, Payload := payload }
        = handleEvent s { Type_ := type2, Payload := payload } ∧
      (handleEvent s (replayEvent run)).2.queue
        = (handleEvent s { Type_ := type1, Payload := .run run }).2.queue ∧
      (handleEvent s (replayEvent run)).2.cancelations
        = (handleEvent s { Type_ := type1, Payload := .run run }).2.cancelations ∧
      spoolExisting existing existing.length s
        = handleAll (existing.reverse.map replayEvent) s ∧
      (handleEvent s { Type_ := type1, Payload := payload }).1
        = (handleEvent t { Type_ := type2, Payload := payload }).1 ∧
      (∃ (runs : List Run) (cancels : List cancelation),
        (handleEvent s { Type_ := type1, Payload := payload }).2.queue = s.queue ++ runs ∧
        (handleEvent t { Type_ := type2, Payload := payload }).2.queue = t.queue ++ runs ∧
        (handleEvent s { Type_ := type1, Payload := payload }).2.cancelations
          = s.cancelations ++ cancels ∧
        (handleEvent t { Type_ := type2, Payload := payload }).2.cancelations
          = t.cancelations ++ cancels ∧
        (handleEvent s (replayEvent run)).2.queue
          = s.queue ++ (specRunOf s.Config.isAgent (replayEvent run)).toList ∧
        (handleEvent t { Type_ := type2, Payload := .run run }).2.queue
          = t.queue ++ (specRunOf s.Config.isAgent (replayEvent run)).toList ∧
        (handleEvent s (replayEvent run)).2.cancelations
          = s.cancelations ++ (specCancelationOf s.Config.isAgent (replayEvent run)).toList ∧
        (handleEvent t { Type_ := type2, Payload := .run run }).2.cancelations
          = t.cancelations ++
            (specCancelationOf s.Config.isAgent (replayEvent run)).toList) := by
  have key : ∀ t1 t2 : EventType, handleEvent s { Type_ := t1, Payload := payload }
      = handleEvent s { Type_ := t2, Payload := payload } := by
    intro t1 t2
    cases payload <;> rfl
  have herr : (handleEvent s { Type_ := type1, Payload := payload }).1
      = (handleEvent t { Type_ := type2, Payload := payload }).1 := by
    cases payload <;> rfl
  refine ⟨key type1 type2, rfl, rfl, spoolExisting_all existing s, herr,
    (specRunOf s.Config.isAgent { Type_ := type1, Payload := payload }).toList,
    (specCancelationOf s.Config.isAgent { Type_ := type1, Payload := payload }).toList,
    handleEvent_queue s _, ?_, handleEvent_cancelations s _, ?_,
    handleEvent_queue s _, ?_, handleEvent_cancelations s _, ?_⟩
  · rw [handleEvent_queue, ← hmode]
    rfl
  · rw [handleEvent_cancelations, ← hmode]
    rfl
  · rw [handleEvent_queue, ← hmode]
    rfl
  · rw [handleEvent_cancelations, ← hmode]
    rfl

theorem handleEvent_ignores_type_witness :
    (handleEvent serverDaemon
        { Type_ := "", Payload := .run (mkRun "run-5" RemoteExecutionMode RunPlanQueued) }).1
      = (handleEvent busyServerDaemon
        { Type_ := "deleted",
          Payload := .run (mkRun "run-5" RemoteExecutionMode RunPlanQueued) }).1 ∧
      (∃ (runs : List Run) (cancels : List cancelation),
        (handleEvent serverDaemon
          { Type_ := "", Payload := .run (mkRun "run-5" RemoteExecutionMode RunPlanQueued) }).2.queue
          = serverDaemon.queue ++ runs ∧
        (handleEvent busyServerDaemon
          { Type_ := "deleted",
            Payload := .run (mkRun "run-5" RemoteExecutionMode RunPlanQueued) }).2.queue
          = busyServerDaemon.queue ++ runs ∧
        (handleEvent serverDaemon
          { Type_ := "",
            Payload := .run (mkRun "run-5" RemoteExecutionMode RunPlanQueued) }).2.cancelations
          = serverDaemon.cancelations ++ cancels ∧
        (handleEvent busyServerDaemon
          { Type_ := "deleted",
            Payload := .run (mkRun "run-5" RemoteExecutionMode RunPlanQueued) }).2.cancelations
          = busyServerDaemon.cancelations ++ cancels) := by
  obtain ⟨_, _, _, _, herr, runs, cancels, h1, h2, h3, h4, _⟩ :=
    handleEvent_ignores_type serverDaemon busyServerDaemon "" "deleted"
      (.run (mkRun "run-5" RemoteExecutionMode RunPlanQueued))
      (mkRun "run-5" RemoteExecutionMode RunPlanQueued) [] rfl
  exact ⟨herr, runs, cancels, h1, h2, h3, h4⟩

end Otf

namespace Otf

theorem mem_specRuns_replay (isAgent : Bool) (runs : List Run) (r : Run) (hr : r ∈ runs)
    (hq : r.Queued = true) (hm : affinityMatches isAgent r = true) :
    r ∈ specRuns isAgent (runs.map replayEvent) := by
  simp only [specRuns, List.mem_filterMap]
  exact ⟨replayEvent r, List.mem_map_of_mem _ hr, by simp [specRunOf, replayEvent, hq, hm]⟩

theorem reinitialize_cycle (fuel : Nat) (s : spoolerDaemon) (sub : List Event)
    (existing : List Run)
    (hw : s.client.Watch { Organization := s.Config.Organization } = .ok sub)
    (hl : ListAll fuel (fun opts => s.client.ListRuns
        { PageOptions := opts,
          Statuses := [RunPlanQueued, RunApplyQueued],
          Organization := s.Config.Organization }) = some (.ok existing)) :
    ∃ (e : error) (st : spoolerDaemon),
      reinitialize fuel s = some (e, st) ∧ st.Config = s.Config ∧
      st.queue = s.queue ++ (specRuns s.Config.isAgent (existing.reverse.map replayEvent)
        ++ specRuns s.Config.isAgent (beforeError sub)) ∧
      st.cancelations = s.cancelations ++
        (specCancelations s.Config.isAgent (existing.reverse.map replayEvent)
          ++ specCancelations s.Config.isAgent (beforeError sub)) := by
  refine ⟨(spoolEvents sub (spoolExisting existing existing.length s)).1,
    (spoolEvents sub (spoolExisting existing existing.length s)).2,
    reinitialize_listed fuel s sub existing hw hl, ?_, ?_, ?_⟩
  · rw [spoolEvents_state, spoolExisting_all, (handleAll_frame _ _).1, (handleAll_frame _ _).1]
  · rw [spoolEvents_state, spoolExisting_all, handleAll_queue, handleAll_queue,
      (handleAll_frame _ _).1, List.append_assoc]
  · rw [spoolEvents_state, spoolExisting_all, handleAll_cancelations, handleAll_cancelations,
      (handleAll_frame _ _).1, List.append_assoc]

/-- C16: two successive reconcile cycles, each with a feed that opens and a
listing that succeeds (the second cycle may get other answers from the client
than the first). Each cycle only appends to the two channels, so what an
earlier cycle sent stays in place unchanged; each cycle sends every run of its
own listing that is queued and matches the affinity of the spooler, whatever
was sent before; so a run in both listings is sent at least twice. -/
theorem reinitialize_at_least_once (fuel1 fuel2 : Nat) (s : spoolerDaemon) (client2 : client)
    (sub1 sub2 : List Event) (existing1 existing2 : List Run)
    (hw1 : s.client.Watch { Organization := s.Config.Organization } = .ok sub1)
    (hl1 : ListAll fuel1 (fun opts => s.client.ListRuns
        { PageOptions := opts,
          Statuses := [RunPlanQueued, RunApplyQueued],
          Organization := s.Config.Organization }) = some (.ok existing1))
    (hw2 : client2.Watch { Organization := s.Config.Organization } = .ok sub2)
    (hl2 : ListAll fuel2 (fun opts => client2.ListRuns
        { PageOptions := opts,
          Statuses := [RunPlanQueued, RunApplyQueued],
          Organization := s.Config.Organization }) = some (.ok existing2)) :
    ∃ (e1 e2 : error) (s1 s2 : spoolerDaemon) (runs1 runs2 : List Run)
        (cancels1 cancels2 : List cancelation),
      reinitialize fuel1 s = some (e1, s1) ∧
      reinitialize fuel2 { s1 with client := client2 } = some (e2, s2) ∧
      s1.queue = s.queue ++ runs1 ∧ s2.queue = s.queue ++ runs1 ++ runs2 ∧
      s1.cancelations = s.cancelations ++ cancels1 ∧
      s2.cancelations = s.cancelations ++ cancels1 ++ cancels2 ∧
      (∀ r ∈ existing1, r.Queued = true →
        ((s.Config.isAgent = true ∧ r.ExecutionMode = AgentExecutionMode) ∨
          (s.Config.isAgent = false ∧ r.ExecutionMode = RemoteExecutionMode)) → r ∈ runs1) ∧
      (∀ r ∈ existing2, r.Queued = true →
        ((s.Config.isAgent = true ∧ r.ExecutionMode = AgentExecutionMode) ∨
          (s.Config.isAgent = false ∧ r.ExecutionMode = RemoteExecutionMode)) → r ∈ runs2) ∧
      (∀ r ∈ existing1, r ∈ existing2 → r.Queued = true →
        ((s.Config.isAgent = true ∧ r.ExecutionMode = AgentExecutionMode) ∨
          (s.Config.isAgent = false ∧ r.ExecutionMode = RemoteExecutionMode)) →
        2 ≤ (runs1 ++ runs2).count r) := by
  obtain ⟨e1, s1, hre1, hcfg1, hq1, hc1⟩ := reinitialize_cycle fuel1 s sub1 existing1 hw1 hl1
  have hw2a : ({ s1 with client := client2 } : spoolerDaemon).client.Watch
      { Organization := ({ s1 with client := client2 } : spoolerDaemon).Config.Organization }
      = .ok sub2 := by
    simpa [hcfg1] using hw2
  have hl2a : ListAll fuel2 (fun opts =>
      ({ s1 with client := client2 } : spoolerDaemon).client.ListRuns
        { PageOptions := opts,
          Statuses := [RunPlanQueued, RunApplyQueued],
          Organization := ({ s1 with client := client2 } : spoolerDaemon).Config.Organization })
      = some (.ok existing2) := by
    simpa [hcfg1] using hl2
  obtain ⟨e2, s2, hre2, _, hq2, hc2⟩ :=
    reinitialize_cycle fuel2 { s1 with client := client2 } sub2 existing2 hw2a hl2a
  simp only [hcfg1] at hq2 hc2
  have hin1 : ∀ r ∈ existing1, r.Queued = true →
      ((s.Config.isAgent = true ∧ r.ExecutionMode = AgentExecutionMode) ∨
        (s.Config.isAgent = false ∧ r.ExecutionMode = RemoteExecutionMode)) →
      r ∈ specRuns s.Config.isAgent (existing1.reverse.map replayEvent)
        ++ specRuns s.Config.isAgent (beforeError sub1) := by
    intro r hr hq hm
    exact List.mem_append_left _ (mem_specRuns_replay _ _ r (List.mem_reverse.2 hr) hq
      ((affinityMatches_iff s r).2 hm))
  have hin2 : ∀ r ∈ existing2, r.Queued = true →
      ((s.Config.isAgent = true ∧ r.ExecutionMode = AgentExecutionMode) ∨
        (s.Config.isAgent = false ∧ r.ExecutionMode = RemoteExecutionMode)) →
      r ∈ specRuns s.Config.isAgent (existing2.reverse.map replayEvent)
        ++ specRuns s.Config.isAgent (beforeError sub2) := by
    intro r hr hq hm
    exact List.mem_append_left _ (mem_specRuns_replay _ _ r (List.mem_reverse.2 hr) hq
      ((affinityMatches_iff s r).2 hm))
  refine ⟨e1, e2, s1, s2,
    specRuns s.Config.isAgent (existing1.reverse.map replayEvent)
      ++ specRuns s.Config.isAgent (beforeError sub1),
    specRuns s.Config.isAgent (existing2.reverse.map replayEvent)
      ++ specRuns s.Config.isAgent (beforeError sub2),
    specCancelations s.Config.isAgent (existing1.reverse.map replayEvent)
      ++ specCancelations s.Config.isAgent (beforeError sub1),
    specCancelations s.Config.isAgent (existing2.reverse.map replayEvent)
      ++ specCancelations s.Config.isAgent (beforeError sub2),
    hre1, hre2, hq1, ?_, hc1, ?_, hin1, hin2, ?_⟩
  · rw [hq2, hq1]
  · rw [hc2, hc1]
  · intro r hr1 hr2 hq hm
    rw [List.count_append]
    have h1 := List.count_pos_iff.2 (hin1 r hr1 hq hm)
    have h2 := List.count_pos_iff.2 (hin2 r hr2 hq hm)
    omega

end Otf

namespace Otf

theorem reinitialize_at_least_once_witness :
    ∃ (e1 e2 : error) (s1 s2 : spoolerDaemon) (runs1 runs2 : List Run),
      reinitialize 2 listedDaemon = some (e1, s1) ∧
      reinitialize 2 { s1 with client := listedClient } = some (e2, s2) ∧
      s2.queue = listedDaemon.queue ++ runs1 ++ runs2 ∧
      2 ≤ (runs1 ++ runs2).count (mkRun "run-1" RemoteExecutionMode RunPlanQueued) := by
  obtain ⟨e1, e2, s1, s2, runs1, runs2, _, _, h1, h2, _, hq2, _, _, _, _, hcount⟩ :=
    reinitialize_at_least_once 2 2 listedDaemon listedClient
      [{ Type_ := "created", Payload := .run (mkRun "run-4" RemoteExecutionMode RunPlanQueued) }]
      [{ Type_ := "created", Payload := .run (mkRun "run-4" RemoteExecutionMode RunPlanQueued) }]
      [mkRun "run-3" RemoteExecutionMode RunPlanQueued,
        mkRun "run-2" RemoteExecutionMode RunApplyQueued,
        mkRun "run-1" RemoteExecutionMode RunPlanQueued]
      [mkRun "run-3" RemoteExecutionMode RunPlanQueued,
        mkRun "run-2" RemoteExecutionMode RunApplyQueued,
        mkRun "run-1" RemoteExecutionMode RunPlanQueued]
      rfl rfl rfl rfl
  exact ⟨e1, e2, s1, s2, runs1, runs2, h1, h2, hq2,
    hcount (mkRun "run-1" RemoteExecutionMode RunPlanQueued) (by decide) (by decide) rfl
      (Or.inr ⟨rfl, rfl⟩)⟩

theorem listedDaemon_two_cycles :
    (( reinitialize 2 listedDaemon).bind (fun res => reinitialize 2 res.2)).map
        (fun res => res.2.queue) =
      some [mkRun "run-1" RemoteExecutionMode RunPlanQueued,
        mkRun "run-2" RemoteExecutionMode RunApplyQueued,
        mkRun "run-3" RemoteExecutionMode RunPlanQueued,
        mkRun "run-4" RemoteExecutionMode RunPlanQueued,
        mkRun "run-1" RemoteExecutionMode RunPlanQueued,
        mkRun "run-2" RemoteExecutionMode RunApplyQueued,
        mkRun "run-3" RemoteExecutionMode RunPlanQueued,
        mkRun "run-4" RemoteExecutionMode RunPlanQueued] := rfl

end Otf

namespace Otf

/-! ## The path helpers -/

theorem cleanElems_plain (rooted : Bool) (elems out : List (List Char))
    (h : ∀ e ∈ elems, e ≠ [] ∧ e ≠ ['.'] ∧ e ≠ ['.', '.']) :
    cleanElems rooted elems out = elems.reverse ++ out := by
  induction elems generalizing out with
  | nil => rfl
  | cons e rest ih =>
    have he := h e (List.mem_cons_self _ _)
    have hrest := fun o => ih o (fun x hx => h x (List.mem_cons_of_mem _ hx))
    simp [cleanElems, he.1, he.2.1, he.2.2, hrest]

theorem intercalate_root (e : List Char) (rest : List (List Char)) :
    ['/'].intercalate ([] :: e :: rest) = '/' :: ['/'].intercalate (e :: rest) := by
  simp [List.intercalate]

theorem Clean_rooted_plain (e : List Char) (rest : List (List Char))
    (h : ∀ x ∈ e :: rest, x ≠ [] ∧ '/' ∉ x ∧ x ≠ ['.'] ∧ x ≠ ['.', '.']) :
    Clean (String.mk ('/' :: ['/'].intercalate (e :: rest)))
      = String.mk ('/' :: ['/'].intercalate (e :: rest)) := by
  have hsplit : ('/' :: ['/'].intercalate (e :: rest)).splitOn '/' = [] :: e :: rest := by
    rw [← intercalate_root]
    apply List.splitOn_intercalate
    · intro l hl
      rcases List.mem_cons.1 hl with hnil | hmem
      · rw [hnil]
        exact List.not_mem_nil _
      · exact (h l hmem).2.1
    · exact List.cons_ne_nil _ _
  have hplain : ∀ x ∈ e :: rest, x ≠ [] ∧ x ≠ ['.'] ∧ x ≠ ['.', '.'] :=
    fun x hx => ⟨(h x hx).1, (h x hx).2.2.1, (h x hx).2.2.2⟩
  have hne : String.mk ('/' :: ['/'].intercalate (e :: rest)) ≠ "" := by
    intro hcontra
    have := congrArg String.data hcontra
    simp at this
  unfold Clean
  rw [if_neg hne]
  simp only [List.head?_cons, decide_True, if_true, hsplit]
  rw [show cleanElems true ([] :: e :: rest) [] = cleanElems true (e :: rest) [] by
    simp [cleanElems]]
  rw [cleanElems_plain true (e :: rest) [] hplain]
  simp

end Otf

namespace Otf

theorem wellFormedName_data (name : String) (h : wellFormedName name) :
    name.data ≠ [] ∧ '/' ∉ name.data ∧ name.data ≠ ['.'] ∧ name.data ≠ ['.', '.'] := by
  obtain ⟨h1, h2, h3, h4⟩ := h
  refine ⟨?_, h2, ?_, ?_⟩
  · intro hd
    exact h1 (String.ext hd)
  · intro hd
    exact h3 (String.ext hd)
  · intro hd
    exact h4 (String.ext hd)

theorem Join_two (a b : String) (ha : a ≠ "") : Join [a, b] = Clean (a ++ "/" ++ b) := by
  have hb : (a == "") = false := by simp [ha]
  simp [Join, List.dropWhile, hb, String.intercalate, String.intercalate.go]

theorem Join_three (a b c : String) (ha : a ≠ "") :
    Join [a, b, c] = Clean (a ++ "/" ++ b ++ "/" ++ c) := by
  have hb : (a == "") = false := by simp [ha]
  simp [Join, List.dropWhile, hb, String.intercalate, String.intercalate.go]

theorem getOrganizationPath_ne_empty (route : organizationRoute) :
    getOrganizationPath route ≠ "" := by
  intro h
  have := congrArg String.data h
  simp [getOrganizationPath, String.data_append] at this

theorem getRunPath_ne_empty (run : runRoute) : getRunPath run ≠ "" := by
  intro h
  have := congrArg String.data h
  simp [getRunPath, String.data_append] at this

theorem organizationPath_sub (route : organizationRoute) (sub : List (List Char)) :
    (getOrganizationPath route).data ++ ['/'].intercalate ([] :: "agent-tokens".data :: sub)
      = '/' :: ['/'].intercalate
          ("organizations".data :: route.OrganizationName.data :: "agent-tokens".data :: sub) := by
  have h1 : "/organizations/".data = '/' :: ("organizations".data ++ ['/']) := by decide
  simp [getOrganizationPath, String.data_append, h1, List.intercalate]

end Otf

namespace Otf

theorem Clean_of_data (p : String) (e : List Char) (rest : List (List Char))
    (hp : p.data = '/' :: ['/'].intercalate (e :: rest))
    (h : ∀ x ∈ e :: rest, x ≠ [] ∧ '/' ∉ x ∧ x ≠ ['.'] ∧ x ≠ ['.', '.']) :
    Clean p = p := by
  have hmk : p = String.mk ('/' :: ['/'].intercalate (e :: rest)) := String.ext hp
  rw [hmk]
  exact Clean_rooted_plain e rest h

theorem agentTokenPath_clean (route : organizationRoute)
    (h : wellFormedName route.OrganizationName) (p : String) (sub : List (List Char))
    (hsub : ∀ x ∈ sub, x ≠ [] ∧ '/' ∉ x ∧ x ≠ ['.'] ∧ x ≠ ['.', '.'])
    (hp : p.data = (getOrganizationPath route).data
      ++ ['/'].intercalate ([] :: "agent-tokens".data :: sub)) :
    Clean p = p := by
  apply Clean_of_data p "organizations".data
    (route.OrganizationName.data :: "agent-tokens".data :: sub)
  · rw [hp, organizationPath_sub]
  · intro x hx
    simp only [List.mem_cons] at hx
    rcases hx with rfl | rfl | rfl | hx
    · decide
    · exact wellFormedName_data _ h
    · decide
    · exact hsub x hx

theorem runPath_tail_data (run : runRoute) :
    (getRunPath run ++ "/" ++ "tail").data
      = '/' :: ['/'].intercalate
          ["organizations".data, run.OrganizationName.data, "workspaces".data,
            run.WorkspaceName.data, "runs".data, run.RunID.data, "tail".data] := by
  have h1 : "/organizations/".data = '/' :: ("organizations".data ++ ['/']) := by decide
  have h2 : "/workspaces/".data = '/' :: ("workspaces".data ++ ['/']) := by decide
  have h3 : "/runs/".data = '/' :: ("runs".data ++ ['/']) := by decide
  have h4 : "/".data = ['/'] := by decide
  simp [getRunPath, String.data_append, h1, h2, h3, h4, List.intercalate]

/-- C17: for a route whose organization name is not empty, holds no slash and
is neither "." nor "..", the agent-token helpers built with path.Join give the
organization path followed by "/agent-tokens", and by "/delete", "/create" or
"/new" after that; for a run route whose organization name, workspace name and
run ID are of that kind, tailRunPath gives the run path followed by "/tail". -/
theorem join_helpers_concatenate (route : organizationRoute) (run : runRoute)
    (ho : wellFormedName route.OrganizationName)
    (hro : wellFormedName run.OrganizationName) (hrw : wellFormedName run.WorkspaceName)
    (hri : wellFormedName run.RunID) :
    listAgentTokenPath route = getOrganizationPath route ++ "/agent-tokens" ∧
      deleteAgentTokenPath route = getOrganizationPath route ++ "/agent-tokens" ++ "/delete" ∧
      createAgentTokenPath route = getOrganizationPath route ++ "/agent-tokens" ++ "/create" ∧
      newAgentTokenPath route = getOrganizationPath route ++ "/agent-tokens" ++ "/new" ∧
      tailRunPath run = getRunPath run ++ "/tail" := by
  have hs : "/".data = ['/'] := by decide
  have hat : "/agent-tokens".data = '/' :: "agent-tokens".data := by decide
  have hne := getOrganizationPath_ne_empty route
  refine ⟨?_, ?_, ?_, ?_, ?_⟩
  · rw [listAgentTokenPath, Join_two _ _ hne,
      agentTokenPath_clean route ho _ [] (by simp) (by simp [String.data_append, hs, List.intercalate])]
    apply String.ext
    simp [String.data_append, hs, hat]
  · have hd : "/delete".data = '/' :: "delete".data := by decide
    rw [deleteAgentTokenPath, Join_three _ _ _ hne,
      agentTokenPath_clean route ho _ ["delete".data] (by decide)
        (by simp [String.data_append, hs, List.intercalate])]
    apply String.ext
    simp [String.data_append, hs, hat, hd]
  · have hd : "/create".data = '/' :: "create".data := by decide
    rw [createAgentTokenPath, Join_three _ _ _ hne,
      agentTokenPath_clean route ho _ ["create".data] (by decide)
        (by simp [String.data_append, hs, List.intercalate])]
    apply String.ext
    simp [String.data_append, hs, hat, hd]
  · have hd : "/new".data = '/' :: "new".data := by decide
    rw [newAgentTokenPath, Join_three _ _ _ hne,
      agentTokenPath_clean route ho _ ["new".data] (by decide)
        (by simp [String.data_append, hs, List.intercalate])]
    apply String.ext
    simp [String.data_append, hs, hat, hd]
  · have hd : "/tail".data = '/' :: "tail".data := by decide
    rw [tailRunPath, Join_two _ _ (getRunPath_ne_empty run),
      Clean_of_data _ _ _ (runPath_tail_data run) ?_]
    · apply String.ext
      simp [String.data_append, hs, hd]
    · intro x hx
      simp only [List.mem_cons, List.mem_singleton, List.not_mem_nil, or_false] at hx
      rcases hx with rfl | rfl | rfl | rfl | rfl | rfl | rfl
      · decide
      · exact wellFormedName_data _ hro
      · decide
      · exact wellFormedName_data _ hrw
      · decide
      · exact wellFormedName_data _ hri
      · decide

theorem join_helpers_concatenate_witness :
    listAgentTokenPath { OrganizationName := "acme" }
        = getOrganizationPath { OrganizationName := "acme" } ++ "/agent-tokens" ∧
      deleteAgentTokenPath { OrganizationName := "acme" }
        = getOrganizationPath { OrganizationName := "acme" } ++ "/agent-tokens" ++ "/delete" ∧
      createAgentTokenPath { OrganizationName := "acme" }
        = getOrganizationPath { OrganizationName := "acme" } ++ "/agent-tokens" ++ "/create" ∧
      newAgentTokenPath { OrganizationName := "acme" }
        = getOrganizationPath { OrganizationName := "acme" } ++ "/agent-tokens" ++ "/new" ∧
      tailRunPath acmeRun = getRunPath acmeRun ++ "/tail" :=
  join_helpers_concatenate { OrganizationName := "acme" } acmeRun
    (by decide) (by decide) (by decide) (by decide)

end Otf

namespace Otf

theorem getRunPath_split (run : runRoute)
    (h : '/' ∉ run.OrganizationName.data ∧ '/' ∉ run.WorkspaceName.data ∧
      '/' ∉ run.RunID.data) :
    (getRunPath run).data.splitOn '/'
      = [[], "organizations".data, run.OrganizationName.data, "workspaces".data,
          run.WorkspaceName.data, "runs".data, run.RunID.data] := by
  have h1 : "/organizations/".data = '/' :: ("organizations".data ++ ['/']) := by decide
  have h2 : "/workspaces/".data = '/' :: ("workspaces".data ++ ['/']) := by decide
  have h3 : "/runs/".data = '/' :: ("runs".data ++ ['/']) := by decide
  have hdata : (getRunPath run).data
      = ['/'].intercalate [[], "organizations".data, run.OrganizationName.data,
          "workspaces".data, run.WorkspaceName.data, "runs".data, run.RunID.data] := by
    simp [getRunPath, String.data_append, h1, h2, h3, List.intercalate]
  rw [hdata]
  apply List.splitOn_intercalate
  · intro x hx
    simp only [List.mem_cons, List.mem_singleton, List.not_mem_nil, or_false] at hx
    rcases hx with rfl | rfl | rfl | rfl | rfl | rfl | rfl
    · exact List.not_mem_nil _
    · decide
    · exact h.1
    · decide
    · exact h.2.1
    · decide
    · exact h.2.2
  · exact List.cons_ne_nil _ _

theorem getWorkspacePath_split (ws : workspaceRoute)
    (h : '/' ∉ ws.OrganizationName.data ∧ '/' ∉ ws.WorkspaceName.data) :
    (getWorkspacePath ws).data.splitOn '/'
      = [[], "organizations".data, ws.OrganizationName.data, "workspaces".data,
          ws.WorkspaceName.data] := by
  have h1 : "/organizations/".data = '/' :: ("organizations".data ++ ['/']) := by decide
  have h2 : "/workspaces/".data = '/' :: ("workspaces".data ++ ['/']) := by decide
  have hdata : (getWorkspacePath ws).data
      = ['/'].intercalate [[], "organizations".data, ws.OrganizationName.data,
          "workspaces".data, ws.WorkspaceName.data] := by
    simp [getWorkspacePath, String.data_append, h1, h2, List.intercalate]
  rw [hdata]
  apply List.splitOn_intercalate
  · intro x hx
    simp only [List.mem_cons, List.mem_singleton, List.not_mem_nil, or_false] at hx
    rcases hx with rfl | rfl | rfl | rfl | rfl
    · exact List.not_mem_nil _
    · decide
    · exact h.1
    · decide
    · exact h.2
  · exact List.cons_ne_nil _ _

/-- C18: for run routes whose organization name, workspace name and run ID hold
no slash, equal run paths come from equal organization names, workspace names
and run IDs; and for workspace routes whose organization name and workspace
name hold no slash, equal workspace paths come from equal organization names
and workspace names. -/
theorem route_paths_injective (a b : runRoute) (wa wb : workspaceRoute)
    (ha : '/' ∉ a.OrganizationName.data ∧ '/' ∉ a.WorkspaceName.data ∧ '/' ∉ a.RunID.data)
    (hb : '/' ∉ b.OrganizationName.data ∧ '/' ∉ b.WorkspaceName.data ∧ '/' ∉ b.RunID.data)
    (hwa : '/' ∉ wa.OrganizationName.data ∧ '/' ∉ wa.WorkspaceName.data)
    (hwb : '/' ∉ wb.OrganizationName.data ∧ '/' ∉ wb.WorkspaceName.data) :
    (getRunPath a = getRunPath b →
        a.OrganizationName = b.OrganizationName ∧ a.WorkspaceName = b.WorkspaceName ∧
          a.RunID = b.RunID) ∧
      (getWorkspacePath wa = getWorkspacePath wb →
        wa.OrganizationName = wb.OrganizationName ∧ wa.WorkspaceName = wb.WorkspaceName) := by
  constructor
  · intro h
    have hsplit := congrArg (fun p : String => p.data.splitOn '/') h
    simp only [getRunPath_split a ha, getRunPath_split b hb] at hsplit
    simp only [List.cons.injEq, true_and, and_true] at hsplit
    exact ⟨String.ext hsplit.1, String.ext hsplit.2.1, String.ext hsplit.2.2⟩
  · intro h
    have hsplit := congrArg (fun p : String => p.data.splitOn '/') h
    simp only [getWorkspacePath_split wa hwa, getWorkspacePath_split wb hwb] at hsplit
    simp only [List.cons.injEq, true_and, and_true] at hsplit
    exact ⟨String.ext hsplit.1, String.ext hsplit.2⟩

theorem route_paths_injective_witness :
    getRunPath acmeRun ≠ getRunPath acmeOtherRun ∧
      getWorkspacePath acmeDev ≠ getWorkspacePath acmeProd :=
  ⟨fun h => absurd ((route_paths_injective acmeRun acmeOtherRun acmeDev acmeProd
      (by decide) (by decide) (by decide) (by decide)).1 h).2.2 (by decide),
    fun h => absurd ((route_paths_injective acmeRun acmeOtherRun acmeDev acmeProd
      (by decide) (by decide) (by decide) (by decide)).2 h).2 (by decide)⟩

/-! ## The path helpers, evaluated -/

theorem Clean_examples :
    Clean "" = "." ∧ Clean "/" = "/" ∧ Clean "abc/" = "abc" ∧
      Clean "abc//def//ghi" = "abc/def/ghi" ∧ Clean "abc/./def" = "abc/def" ∧
      Clean "abc/def/../ghi/../jkl" = "abc/jkl" ∧ Clean "abc/def/../.." = "." ∧
      Clean "/abc/def/../../.." = "/" ∧ Clean "abc/../../././../def" = "../../def" := by
  decide

theorem path_helper_examples :
    listAgentTokenPath { OrganizationName := "acme" } = "/organizations/acme/agent-tokens" ∧
      newAgentTokenPath { OrganizationName := "acme" }
        = "/organizations/acme/agent-tokens/new" ∧
      tailRunPath acmeRun = "/organizations/acme/workspaces/dev/runs/run-1/tail" ∧
      listAgentTokenPath { OrganizationName := ".." } = "/agent-tokens" ∧
      listAgentTokenPath { OrganizationName := "" } = "/organizations/agent-tokens" := by
  decide

theorem getWorkspacePath_slash_collision :
    getWorkspacePath { OrganizationName := "a/workspaces/b", WorkspaceName := "c" }
      = getWorkspacePath { OrganizationName := "a", WorkspaceName := "b/workspaces/c" } := by
  decide

end Otf

namespace Otf

/-! ## Where the cancelations of a cycle come from -/

theorem specCancelations_source (isAgent : Bool) (evs : List Event) (c : cancelation)
    (hc : c ∈ specCancelations isAgent evs) :
    (∃ ev ∈ evs, ev.Payload = .run c.Run) ∧ affinityMatches isAgent c.Run = true ∧
      ((c.Run.Status = RunCanceled ∧ c.Forceful = false) ∨
        (c.Run.Status = RunForceCanceled ∧ c.Forceful = true)) := by
  simp only [specCancelations, List.mem_filterMap] at hc
  obtain ⟨ev, hev, hsome⟩ := hc
  have hspec := specCancelationOf_some isAgent ev c hsome
  exact ⟨⟨ev, hev, hspec.1⟩, hspec.2.1, hspec.2.2⟩

/-- C7, amended: whenever a reconcile cycle returns, the cancelations channel
holds what it held before followed by the cancelations the cycle sent, and each
cancelation the cycle sent, by the replay loop or by the loop over the
subscription, is for a run that the listing returned or that an event of the
subscription carries as payload, with an execution mode matching the mode of
the spooler, and with status canceled (then Forceful is false) or
force-canceled (then Forceful is true). Whether that run was sent on the runs
channel plays no part. -/
theorem cancelations_come_from_events (fuel : Nat) (s : spoolerDaemon) (e : error)
    (st : spoolerDaemon) (hre : reinitialize fuel s = some (e, st)) :
    ∃ sent : List cancelation,
      st.cancelations = s.cancelations ++ sent ∧
      ∀ c ∈ sent,
        ((∃ existing : List Run,
            ListAll fuel (fun opts => s.client.ListRuns
              { PageOptions := opts,
                Statuses := [RunPlanQueued, RunApplyQueued],
                Organization := s.Config.Organization }) = some (.ok existing) ∧
            c.Run ∈ existing) ∨
          (∃ sub : List Event,
            s.client.Watch { Organization := s.Config.Organization } = .ok sub ∧
            ∃ ev ∈ sub, ev.Payload = .run c.Run)) ∧
        ((s.Config.isAgent = true ∧ c.Run.ExecutionMode = AgentExecutionMode) ∨
          (s.Config.isAgent = false ∧ c.Run.ExecutionMode = RemoteExecutionMode)) ∧
        ((c.Run.Status = RunCanceled ∧ c.Forceful = false) ∨
          (c.Run.Status = RunForceCanceled ∧ c.Forceful = true)) := by
  cases hw : s.client.Watch { Organization := s.Config.Organization } with
  | error err =>
    simp only [ reinitialize, hw, Option.some.injEq, Prod.mk.injEq] at hre
    refine ⟨[], ?_, fun c hc => absurd hc (List.not_mem_nil c)⟩
    rw [← hre.2, List.append_nil]
  | ok sub =>
    cases hl : ListAll fuel (fun opts => s.client.ListRuns
        { PageOptions := opts,
          Statuses := [RunPlanQueued, RunApplyQueued],
          Organization := s.Config.Organization }) with
    | none =>
      simp only [ reinitialize, hw, hl] at hre
      cases hre
    | some listing =>
      cases listing with
      | error err =>
        simp only [ reinitialize, hw, hl, Option.some.injEq, Prod.mk.injEq] at hre
        refine ⟨[], ?_, fun c hc => absurd hc (List.not_mem_nil c)⟩
        rw [← hre.2, List.append_nil]
      | ok existing =>
        obtain ⟨e1, st1, hre1, _, _, hc1⟩ := reinitialize_cycle fuel s sub existing hw hl
        rw [hre] at hre1
        simp only [Option.some.injEq, Prod.mk.injEq] at hre1
        refine ⟨_, by rw [hre1.2]; exact hc1, ?_⟩
        intro c hc
        rcases List.mem_append.1 hc with h | h
        · obtain ⟨⟨ev, hev, hpay⟩, hm, hst⟩ := specCancelations_source _ _ c h
          refine ⟨Or.inl ⟨existing, rfl, ?_⟩, (affinityMatches_iff s c.Run).1 hm, hst⟩
          obtain ⟨r, hr, hrev⟩ := List.mem_map.1 hev
          rw [← hrev] at hpay
          simp only [replayEvent, Payload.run.injEq] at hpay
          rw [← hpay]
          exact List.mem_reverse.1 hr
        · obtain ⟨⟨ev, hev, hpay⟩, hm, hst⟩ := specCancelations_source _ _ c h
          exact ⟨Or.inr ⟨sub, rfl, ev, beforeError_subset sub ev hev, hpay⟩,
            (affinityMatches_iff s c.Run).1 hm, hst⟩

theorem cancelations_come_from_events_witness :
    ∃ (st : spoolerDaemon) (sent : List cancelation),
      reinitialize 1 staleListingDaemon = some (some ErrSubscriptionTerminated, st) ∧
      st.cancelations
        = [{ Run := mkRun "run-8" RemoteExecutionMode RunForceCanceled, Forceful := true },
           { Run := mkRun "run-9" RemoteExecutionMode RunCanceled, Forceful := false }] ∧
      st.cancelations = staleListingDaemon.cancelations ++ sent ∧
      ∀ c ∈ sent,
        ((staleListingDaemon.Config.isAgent = true ∧
            c.Run.ExecutionMode = AgentExecutionMode) ∨
          (staleListingDaemon.Config.isAgent = false ∧
            c.Run.ExecutionMode = RemoteExecutionMode)) ∧
        ((c.Run.Status = RunCanceled ∧ c.Forceful = false) ∨
          (c.Run.Status = RunForceCanceled ∧ c.Forceful = true)) := by
  obtain ⟨sent, hsent, hall⟩ :=
    cancelations_come_from_events 1 staleListingDaemon (some ErrSubscriptionTerminated)
      (spoolEvents
        [{ Type_ := "updated", Payload := .run (mkRun "run-9" RemoteExecutionMode RunCanceled) }]
        (spoolExisting [mkRun "run-8" RemoteExecutionMode RunForceCanceled] 1
          staleListingDaemon)).2 rfl
  exact ⟨_, sent, rfl, rfl, hsent, fun c hc => (hall c hc).2⟩

end Otf
